import Mathlib

/-!
# OpenSEK `ActivateTask`

A shallow embedding of `src/OpenSEK/src/ActivateTask.c` and theorems about it.

The kernel tables `TasksVar` and `TasksConst` are lists; an access outside a
table is undefined behaviour in C and makes the embedded function return
`none`.  Every call of a function or macro that `ActivateTask.c` uses but
does not define is recorded, in program order, in a list of `Effect`s.
-/

namespace OpenSEK

/-! ## Data model -/

/-- Task identifiers are unsigned integers (`TaskType`). -/
abbrev TaskType := Nat

/-- The three status codes `ActivateTask` can produce. -/
inductive StatusType
  | E_OK
  | E_OS_ID
  | E_OS_LIMIT
  deriving DecidableEq

/-- The task states compared and stored in `TasksVar[..].Flags.State`. -/
inductive TaskStateType
  | TASK_ST_SUSPENDED
  | TASK_ST_READY
  | TASK_ST_RUNNING
  | TASK_ST_WAITING
  deriving DecidableEq

/-- The values of `GetCallingContext()`; the source only tests for
`CONTEXT_TASK`, the other names follow section 6 of the specification. -/
inductive ContextType
  | CONTEXT_TASK
  | CONTEXT_ISR2
  | CONTEXT_ISR1
  | CONTEXT_ERRORHOOK
  deriving DecidableEq

/-- One entry of the constant table `TasksConst`. -/
structure TaskConstType where
  StaticPriority : Nat
  MaxActivations : Nat
  Extended : Bool
  Preemtive : Bool
  deriving DecidableEq

/-- One entry of the variable table `TasksVar`. -/
structure TaskVariableType where
  State : TaskStateType
  Activations : Nat
  Events : Nat
  deriving DecidableEq

/-- Build-time configuration: the preprocessor switches, the constants and the
constant task table that `ActivateTask.c` takes from `Osek_Internal.h`.
`ActivationsBits` is the width of the unsigned type of the `Activations`
counter; `MaxActivations` has the same type, which theorems that need it state
as `MaxActivations < 2 ^ ActivationsBits`. -/
structure Config where
  ERROR_CHECKING_EXTENDED : Bool
  HOOK_ERRORHOOK : Bool
  TASKS_COUNT : Nat
  TasksConst : List TaskConstType
  ActivationsBits : Nat
  OSServiceId_ActivateTask : Nat

/-- The mutable kernel state read or written by `ActivateTask`. -/
structure Kernel where
  TasksVar : List TaskVariableType
  Ready : List TaskType
  ErrorHookRunning : Nat
  deriving DecidableEq

/-- What `GetCallingContext()` and `GetRunningTask()` return for one call. -/
structure Caller where
  GetCallingContext : ContextType
  GetRunningTask : TaskType
  deriving DecidableEq

/-- The observable steps of one call, in program order: the calls of
functions and macros defined outside `ActivateTask.c`, and the stores to
`TasksVar`. -/
inductive Effect
  | IntSecure_Start
  | IntSecure_End
  | StoreActivations (TaskID : TaskType) (v : Nat)
  | StoreState (TaskID : TaskType) (s : TaskStateType)
  | StoreEvents (TaskID : TaskType) (v : Nat)
  | AddReady (TaskID : TaskType)
  | Schedule
  | SetError_Api (service : Nat)
  | SetError_Param1 (p : Nat)
  | SetError_Ret (ret : StatusType)
  | SetError_Msg (msg : String)
  | SetError_ErrorHook
  deriving DecidableEq

/-! ## Operations -/

/-- The post-increment `Activations++` on an unsigned counter of
`ActivationsBits` bits. -/
def incrActivations (cfg : Config) (a : Nat) : Nat :=
  (a + 1) % 2 ^ cfg.ActivationsBits

/-- Modelled from the spec: `AddReady` is not in `ActivateTask.c`.  Section 4.2
says that `Insert(taskId)` adds one runnable entry at the tail of its priority
class.  The queue is kept as the list of entries in arrival order, so the new
entry is the last one of its class; the rank by priority is applied when an
entry is taken out. -/
def AddReady (TaskID : TaskType) (q : List TaskType) : List TaskType :=
  q ++ [TaskID]

/-- Lines 94 to 150: the critical section, from `IntSecure_Start()` to
`IntSecure_End()`.  Returns `ret`, the kernel state at `IntSecure_End()` and
the steps taken. -/
def ActivateTask_critical (cfg : Config) (TaskID : TaskType) (k : Kernel) :
    Option (StatusType × Kernel × List Effect) :=
  match k.TasksVar[TaskID]? with
  | none => none
  | some tv =>
    if tv.State = TaskStateType.TASK_ST_SUSPENDED then
      let a := incrActivations cfg tv.Activations
      some (StatusType.E_OK,
        { k with
          TasksVar := k.TasksVar.set TaskID
            { tv with Activations := a, State := TaskStateType.TASK_ST_READY, Events := 0 }
          Ready := AddReady TaskID k.Ready },
        [Effect.IntSecure_Start,
         Effect.StoreActivations TaskID a,
         Effect.StoreState TaskID TaskStateType.TASK_ST_READY,
         Effect.StoreEvents TaskID 0,
         Effect.AddReady TaskID,
         Effect.IntSecure_End])
    else
      match cfg.TasksConst[TaskID]? with
      | none => none
      | some tc =>
        if tc.Extended = true then
          some (StatusType.E_OS_LIMIT, k, [Effect.IntSecure_Start, Effect.IntSecure_End])
        else if tv.Activations < tc.MaxActivations then
          let a := incrActivations cfg tv.Activations
          some (StatusType.E_OK,
            { k with
              TasksVar := k.TasksVar.set TaskID { tv with Activations := a }
              Ready := AddReady TaskID k.Ready },
            [Effect.IntSecure_Start,
             Effect.StoreActivations TaskID a,
             Effect.AddReady TaskID,
             Effect.IntSecure_End])
        else
          some (StatusType.E_OS_LIMIT, k, [Effect.IntSecure_Start, Effect.IntSecure_End])

/-- Lines 78 to 161: the identifier check, the critical section and the
rescheduling decision.  `Schedule` is the effect of the call `Schedule()` on
the kernel state. -/
def ActivateTask_body (cfg : Config) (Schedule : Kernel → Kernel) (caller : Caller)
    (TaskID : TaskType) (k : Kernel) : Option (StatusType × Kernel × List Effect) :=
  if cfg.ERROR_CHECKING_EXTENDED = true ∧ cfg.TASKS_COUNT ≤ TaskID then
    some (StatusType.E_OS_ID, k, [])
  else
    match ActivateTask_critical cfg TaskID k with
    | none => none
    | some (ret, k1, t1) =>
      if caller.GetCallingContext = ContextType.CONTEXT_TASK then
        match cfg.TasksConst[caller.GetRunningTask]? with
        | none => none
        | some rc =>
          if rc.Preemtive = true ∧ ret = StatusType.E_OK then
            some (ret, Schedule k1, t1 ++ [Effect.Schedule])
          else
            some (ret, k1, t1)
      else
        some (ret, k1, t1)

/-- Lines 171 to 175: the five steps that report an error. -/
def ErrorReport (cfg : Config) (TaskID : TaskType) (ret : StatusType) : List Effect :=
  [Effect.SetError_Api cfg.OSServiceId_ActivateTask,
   Effect.SetError_Param1 TaskID,
   Effect.SetError_Ret ret,
   Effect.SetError_Msg "ActivateTask returns != than E_OK",
   Effect.SetError_ErrorHook]

/-- The function `ActivateTask` (lines 65 to 180): the returned status, the
kernel state at the return and the steps taken.  The error hook is user code
outside the kernel; its call is recorded and its body is not modelled. -/
def ActivateTask (cfg : Config) (Schedule : Kernel → Kernel) (caller : Caller)
    (TaskID : TaskType) (k : Kernel) : Option (StatusType × Kernel × List Effect) :=
  match ActivateTask_body cfg Schedule caller TaskID k with
  | none => none
  | some (ret, k2, t2) =>
    if cfg.HOOK_ERRORHOOK = true ∧ ret ≠ StatusType.E_OK ∧ k2.ErrorHookRunning ≠ 1 then
      some (ret, k2, t2 ++ ErrorReport cfg TaskID ret)
    else
      some (ret, k2, t2)

/-! ## Example configuration -/

/-- The task set of the scenarios of the specification: four tasks, `T0` basic
with three activations, `T1` extended, `T2` preemptible, `T3` more urgent. -/
def cfg4 : Config where
  ERROR_CHECKING_EXTENDED := true
  HOOK_ERRORHOOK := true
  TASKS_COUNT := 4
  TasksConst :=
    [ { StaticPriority := 5, MaxActivations := 3, Extended := false, Preemtive := false },
      { StaticPriority := 4, MaxActivations := 1, Extended := true, Preemtive := true },
      { StaticPriority := 10, MaxActivations := 1, Extended := false, Preemtive := true },
      { StaticPriority := 3, MaxActivations := 1, Extended := false, Preemtive := true } ]
  ActivationsBits := 8
  OSServiceId_ActivateTask := 1

/-- A suspended task record as at boot. -/
def bootTask : TaskVariableType :=
  { State := TaskStateType.TASK_ST_SUSPENDED, Activations := 0, Events := 0 }

/-- The boot state for `cfg4`. -/
def boot4 : Kernel :=
  { TasksVar := [bootTask, bootTask, bootTask, bootTask], Ready := [], ErrorHookRunning := 0 }

/-- A call from task level, made by task `T2`. -/
def fromT2 : Caller :=
  { GetCallingContext := ContextType.CONTEXT_TASK, GetRunningTask := 2 }

/-- The rescheduling condition of lines 153 to 155, read off the configuration:
the call comes from task level, the descriptor of the running task is marked
preemptive and the status is `E_OK`. -/
def mustSchedule (cfg : Config) (caller : Caller) (ret : StatusType) : Bool :=
  decide (caller.GetCallingContext = ContextType.CONTEXT_TASK)
    && (cfg.TasksConst[caller.GetRunningTask]?.map (fun rc => rc.Preemtive) == some true)
    && decide (ret = StatusType.E_OK)

/-- The error-hook condition of line 169 under `HOOK_ERRORHOOK == ENABLE`. -/
def mustReport (cfg : Config) (k : Kernel) (ret : StatusType) : Bool :=
  cfg.HOOK_ERRORHOOK && decide (ret ≠ StatusType.E_OK) && decide (k.ErrorHookRunning ≠ 1)

/-- A caller is well formed when, at task level, the running task is an entry
of `TasksConst`. -/
def Caller.ok (cfg : Config) (caller : Caller) : Prop :=
  caller.GetCallingContext = ContextType.CONTEXT_TASK →
    caller.GetRunningTask < cfg.TasksConst.length

instance (cfg : Config) (caller : Caller) : Decidable (caller.ok cfg) := by
  unfold Caller.ok; infer_instance

/-- A state in which task `T0` is ready with one activation, and the extended
task `T1` is waiting. -/
def kReady1 : Kernel :=
  { TasksVar :=
      [ { State := TaskStateType.TASK_ST_READY, Activations := 1, Events := 0 },
        { State := TaskStateType.TASK_ST_WAITING, Activations := 1, Events := 5 },
        { State := TaskStateType.TASK_ST_RUNNING, Activations := 1, Events := 0 },
        bootTask ],
    Ready := [0], ErrorHookRunning := 0 }

/-- A state in which task `T0` has used all of its three activations. -/
def kFull : Kernel :=
  { TasksVar :=
      [ { State := TaskStateType.TASK_ST_READY, Activations := 3, Events := 0 },
        bootTask,
        { State := TaskStateType.TASK_ST_RUNNING, Activations := 1, Events := 0 },
        bootTask ],
    Ready := [0, 0, 0], ErrorHookRunning := 0 }

/-- The tables have `TASKS_COUNT` entries, as their C declarations say. -/
def Config.wf (cfg : Config) : Prop :=
  cfg.TasksConst.length = cfg.TASKS_COUNT

instance (cfg : Config) : Decidable cfg.wf := by
  unfold Config.wf; infer_instance

/-- The variable table has `TASKS_COUNT` entries. -/
def Kernel.wf (cfg : Config) (k : Kernel) : Prop :=
  k.TasksVar.length = cfg.TASKS_COUNT

instance (cfg : Config) (k : Kernel) : Decidable (k.wf cfg) := by
  unfold Kernel.wf; infer_instance

/-- The configuration `cfg4` with standard (not extended) error checking. -/
def cfg4std : Config :=
  { cfg4 with ERROR_CHECKING_EXTENDED := false }

/-- A call from an interrupt of category 2 while no task is running. -/
def fromISR : Caller :=
  { GetCallingContext := ContextType.CONTEXT_ISR2, GetRunningTask := 255 }

/-- The steps of a critical section that changes nothing. -/
def emptyCritical : List Effect := [Effect.IntSecure_Start, Effect.IntSecure_End]

/-- A sequence of calls of `ActivateTask`, each with its caller and its
`TaskID`, run one after the other: the statuses in call order, the final kernel
state and all steps taken. -/
def ActivateTask_calls (cfg : Config) (Schedule : Kernel → Kernel) :
    List (Caller × TaskType) → Kernel → Option (List StatusType × Kernel × List Effect)
  | [], k => some ([], k, [])
  | (caller, TaskID) :: rest, k =>
    match ActivateTask cfg Schedule caller TaskID k with
    | none => none
    | some (ret, k1, t1) =>
      match ActivateTask_calls cfg Schedule rest k1 with
      | none => none
      | some (rets, k2, t2) => some (ret :: rets, k2, t1 ++ t2)

/-- Task `T` after `j` activation requests without termination, for a limit of
`m` activations: the counter is `min j m`, and the task is suspended exactly
when nothing was requested yet. -/
def Activated (T : TaskType) (j m : Nat) (k : Kernel) : Prop :=
  ∃ tv, k.TasksVar[T]? = some tv ∧ tv.Activations = min j m
    ∧ (tv.State = TaskStateType.TASK_ST_SUSPENDED ↔ j = 0)

/-- Modelled from the spec: `Schedule` is not in `ActivateTask.c`.  Section 4.3
says that on a context switch the head of the ready queue is removed and goes
from READY to RUNNING.  This is that part, for the ready task `i`; it leaves
activation counters and events as they are. -/
def dispatch (i : TaskType) (k : Kernel) : Kernel :=
  match k.TasksVar[i]? with
  | none => k
  | some tv =>
    if tv.State = TaskStateType.TASK_ST_READY then
      { k with
        TasksVar := k.TasksVar.set i { tv with State := TaskStateType.TASK_ST_RUNNING }
        Ready := k.Ready.erase i }
    else k

/-- The invariant behind the activation-count bound, for a kernel state `k`
reached by the steps `t`: every counter is at most `MaxActivations`, is 0 for a
suspended task, and equals the number of `AddReady` calls made for its task
(so it never wrapped). -/
def CountInv (cfg : Config) (k : Kernel) (t : List Effect) : Prop :=
  k.TasksVar.length = cfg.TASKS_COUNT ∧
    ∀ i tv d, k.TasksVar[i]? = some tv → cfg.TasksConst[i]? = some d →
      tv.Activations ≤ d.MaxActivations
        ∧ (tv.State = TaskStateType.TASK_ST_SUSPENDED → tv.Activations = 0)
        ∧ tv.Activations = t.count (Effect.AddReady i)

/-- Modelled from the spec: `Schedule` is not in `ActivateTask.c`.  Section 4.3
says that a context switch moves the running task from RUNNING to READY and the
head of the ready queue from READY to RUNNING, and nothing else.  So `Schedule`
leaves every activation counter as it is, and a task is suspended after it
exactly when it was suspended before. -/
def ScheduleModel (Schedule : Kernel → Kernel) : Prop :=
  (∀ k, (Schedule k).TasksVar.map (fun v => v.Activations)
      = k.TasksVar.map (fun v => v.Activations)) ∧
    (∀ (k : Kernel) (i : TaskType) (tv tv1 : TaskVariableType),
      k.TasksVar[i]? = some tv → (Schedule k).TasksVar[i]? = some tv1 →
      (tv1.State = TaskStateType.TASK_ST_SUSPENDED ↔
        tv.State = TaskStateType.TASK_ST_SUSPENDED))

/-- The invariant of extended tasks, for a kernel state `k` reached by the
steps `t`: the activation counter of an extended task is 0 when the task is
suspended and 1 otherwise, and equals the number of `AddReady` calls made for
the task. -/
def ExtInv (cfg : Config) (k : Kernel) (t : List Effect) : Prop :=
  k.TasksVar.length = cfg.TASKS_COUNT ∧
    ∀ i tv d, k.TasksVar[i]? = some tv → cfg.TasksConst[i]? = some d →
      d.Extended = true →
      (tv.State = TaskStateType.TASK_ST_SUSPENDED → tv.Activations = 0)
        ∧ (tv.State ≠ TaskStateType.TASK_ST_SUSPENDED → tv.Activations = 1)
        ∧ tv.Activations = t.count (Effect.AddReady i)

/-- The ready-queue membership invariant of the specification: every task
identifier is in the ready queue exactly when the state of its task is READY. -/
def ReadyInv (k : Kernel) : Prop :=
  ∀ i, i < k.TasksVar.length →
    (i ∈ k.Ready ↔ k.TasksVar[i]?.map (fun v => v.State) = some TaskStateType.TASK_ST_READY)

instance (k : Kernel) : Decidable (ReadyInv k) := by
  unfold ReadyInv; infer_instance

/-- A state in which the basic task `T0` is running with one activation and
the ready queue is empty. -/
def kRunning : Kernel :=
  { TasksVar :=
      [ { State := TaskStateType.TASK_ST_RUNNING, Activations := 1, Events := 0 },
        bootTask, bootTask, bootTask ],
    Ready := [], ErrorHookRunning := 0 }

/-- A state in which the basic task `T0` is ready with one activation and one
entry in the ready queue, and `T2` is running. -/
def kReady0 : Kernel :=
  { TasksVar :=
      [ { State := TaskStateType.TASK_ST_READY, Activations := 1, Events := 0 },
        bootTask,
        { State := TaskStateType.TASK_ST_RUNNING, Activations := 1, Events := 0 },
        bootTask ],
    Ready := [0], ErrorHookRunning := 0 }

/-- The steps that change kernel data: the stores to a task record and the
call of `AddReady`. -/
def Effect.isWrite : Effect → Bool
  | Effect.StoreActivations _ _ => true
  | Effect.StoreState _ _ => true
  | Effect.StoreEvents _ _ => true
  | Effect.AddReady _ => true
  | _ => false

/-- The steps that call the scheduler or report an error: `Schedule` and the
`SetError` steps, the last of which invokes the error hook. -/
def Effect.isDeferred : Effect → Bool
  | Effect.Schedule => true
  | Effect.SetError_Api _ => true
  | Effect.SetError_Param1 _ => true
  | Effect.SetError_Ret _ => true
  | Effect.SetError_Msg _ => true
  | Effect.SetError_ErrorHook => true
  | _ => false

/-- An indexed access to one of the two task tables. -/
inductive Access
  | TasksVar (i : Nat)
  | TasksConst (i : Nat)
  deriving DecidableEq

/-- The index of an access. -/
def Access.index : Access → Nat
  | Access.TasksVar i => i
  | Access.TasksConst i => i

/-- An access is inside its table. -/
def Access.inTable (cfg : Config) (k : Kernel) : Access → Prop
  | Access.TasksVar i => i < k.TasksVar.length
  | Access.TasksConst i => i < cfg.TasksConst.length

/-- The table accesses of the critical section, in program order, up to and
including the first access outside a table: `TasksVar[TaskID]` at lines 99,
102, 106, 110, 131 and 134, and `TasksConst[TaskID]` at lines 119 and 131. -/
def critical_accesses (cfg : Config) (TaskID : TaskType) (k : Kernel) : List Access :=
  match k.TasksVar[TaskID]? with
  | none => [Access.TasksVar TaskID]
  | some tv =>
    if tv.State = TaskStateType.TASK_ST_SUSPENDED then
      [Access.TasksVar TaskID, Access.TasksVar TaskID, Access.TasksVar TaskID,
       Access.TasksVar TaskID]
    else
      match cfg.TasksConst[TaskID]? with
      | none => [Access.TasksVar TaskID, Access.TasksConst TaskID]
      | some tc =>
        if tc.Extended = true then
          [Access.TasksVar TaskID, Access.TasksConst TaskID]
        else if tv.Activations < tc.MaxActivations then
          [Access.TasksVar TaskID, Access.TasksConst TaskID, Access.TasksVar TaskID,
           Access.TasksConst TaskID, Access.TasksVar TaskID]
        else
          [Access.TasksVar TaskID, Access.TasksConst TaskID, Access.TasksVar TaskID,
           Access.TasksConst TaskID]

/-- The table accesses of one call of `ActivateTask`, in program order, up to
and including the first access outside a table: none on the `E_OS_ID` path,
otherwise those of the critical section and then `TasksConst[GetRunningTask()]`
at line 154, which the `&&` of line 153 evaluates only when the calling
context is `CONTEXT_TASK`. -/
def ActivateTask_accesses (cfg : Config) (caller : Caller) (TaskID : TaskType)
    (k : Kernel) : List Access :=
  if cfg.ERROR_CHECKING_EXTENDED = true ∧ cfg.TASKS_COUNT ≤ TaskID then []
  else
    critical_accesses cfg TaskID k
      ++ (if (ActivateTask_critical cfg TaskID k).isSome = true
            ∧ caller.GetCallingContext = ContextType.CONTEXT_TASK then
          [Access.TasksConst caller.GetRunningTask]
        else [])

/-- The lifecycle of section 3 of the specification as a property of a kernel
state: records start as {SUSPENDED, 0, 0} and a task returns to SUSPENDED only
when its activation count reaches 0, so every suspended task has activation
counter 0. -/
def SuspendedAtZero (k : Kernel) : Prop :=
  ∀ v ∈ k.TasksVar, v.State = TaskStateType.TASK_ST_SUSPENDED → v.Activations = 0

instance (k : Kernel) : Decidable (SuspendedAtZero k) := by
  unfold SuspendedAtZero; infer_instance

/-! ## Theorems -/

/-! ### The branches of the critical section -/

theorem critical_suspended (cfg : Config) (TaskID : TaskType) (k : Kernel)
    (tv : TaskVariableType) (hv : k.TasksVar[TaskID]? = some tv)
    (hs : tv.State = TaskStateType.TASK_ST_SUSPENDED) :
    ActivateTask_critical cfg TaskID k =
      some (StatusType.E_OK,
        { k with
          TasksVar := k.TasksVar.set TaskID
            { tv with Activations := incrActivations cfg tv.Activations,
                      State := TaskStateType.TASK_ST_READY, Events := 0 }
          Ready := AddReady TaskID k.Ready },
        [Effect.IntSecure_Start,
         Effect.StoreActivations TaskID (incrActivations cfg tv.Activations),
         Effect.StoreState TaskID TaskStateType.TASK_ST_READY,
         Effect.StoreEvents TaskID 0,
         Effect.AddReady TaskID,
         Effect.IntSecure_End]) := by
  simp [ActivateTask_critical, hv, hs]

theorem critical_extended (cfg : Config) (TaskID : TaskType) (k : Kernel)
    (tv : TaskVariableType) (tc : TaskConstType)
    (hv : k.TasksVar[TaskID]? = some tv) (hc : cfg.TasksConst[TaskID]? = some tc)
    (hs : tv.State ≠ TaskStateType.TASK_ST_SUSPENDED) (he : tc.Extended = true) :
    ActivateTask_critical cfg TaskID k =
      some (StatusType.E_OS_LIMIT, k, [Effect.IntSecure_Start, Effect.IntSecure_End]) := by
  simp [ActivateTask_critical, hv, hc, hs, he]

theorem critical_repeat (cfg : Config) (TaskID : TaskType) (k : Kernel)
    (tv : TaskVariableType) (tc : TaskConstType)
    (hv : k.TasksVar[TaskID]? = some tv) (hc : cfg.TasksConst[TaskID]? = some tc)
    (hs : tv.State ≠ TaskStateType.TASK_ST_SUSPENDED) (he : tc.Extended = false)
    (hlt : tv.Activations < tc.MaxActivations) :
    ActivateTask_critical cfg TaskID k =
      some (StatusType.E_OK,
        { k with
          TasksVar := k.TasksVar.set TaskID
            { tv with Activations := incrActivations cfg tv.Activations }
          Ready := AddReady TaskID k.Ready },
        [Effect.IntSecure_Start,
         Effect.StoreActivations TaskID (incrActivations cfg tv.Activations),
         Effect.AddReady TaskID,
         Effect.IntSecure_End]) := by
  simp [ActivateTask_critical, hv, hc, hs, he, hlt]

theorem critical_limit (cfg : Config) (TaskID : TaskType) (k : Kernel)
    (tv : TaskVariableType) (tc : TaskConstType)
    (hv : k.TasksVar[TaskID]? = some tv) (hc : cfg.TasksConst[TaskID]? = some tc)
    (hs : tv.State ≠ TaskStateType.TASK_ST_SUSPENDED) (he : tc.Extended = false)
    (hge : ¬ tv.Activations < tc.MaxActivations) :
    ActivateTask_critical cfg TaskID k =
      some (StatusType.E_OS_LIMIT, k, [Effect.IntSecure_Start, Effect.IntSecure_End]) := by
  simp [ActivateTask_critical, hv, hc, hs, he, hge]

/-! ### From the critical section to the whole call -/

theorem body_of_critical (cfg : Config) (Schedule : Kernel → Kernel) (caller : Caller)
    (TaskID : TaskType) (k k1 : Kernel) (ret : StatusType) (t1 : List Effect)
    (hid : TaskID < cfg.TASKS_COUNT) (hcaller : caller.ok cfg)
    (hcrit : ActivateTask_critical cfg TaskID k = some (ret, k1, t1)) :
    ActivateTask_body cfg Schedule caller TaskID k =
      some (ret, if mustSchedule cfg caller ret = true then Schedule k1 else k1,
        t1 ++ if mustSchedule cfg caller ret = true then [Effect.Schedule] else []) := by
  have hno : ¬ (cfg.ERROR_CHECKING_EXTENDED = true ∧ cfg.TASKS_COUNT ≤ TaskID) := by
    intro h; exact absurd h.2 (Nat.not_le.mpr hid)
  unfold ActivateTask_body
  rw [if_neg hno, hcrit]
  by_cases hctx : caller.GetCallingContext = ContextType.CONTEXT_TASK
  · obtain ⟨rc, hrc⟩ : ∃ rc, cfg.TasksConst[caller.GetRunningTask]? = some rc :=
      ⟨_, List.getElem?_eq_getElem (hcaller hctx)⟩
    by_cases hp : rc.Preemtive = true <;> by_cases hr : ret = StatusType.E_OK <;>
      simp [mustSchedule, hctx, hrc, hp, hr]
  · simp [mustSchedule, hctx]

theorem ActivateTask_of_body (cfg : Config) (Schedule : Kernel → Kernel) (caller : Caller)
    (TaskID : TaskType) (k k2 : Kernel) (ret : StatusType) (t2 : List Effect)
    (hbody : ActivateTask_body cfg Schedule caller TaskID k = some (ret, k2, t2)) :
    ActivateTask cfg Schedule caller TaskID k =
      some (ret, k2, t2 ++ if mustReport cfg k2 ret = true then ErrorReport cfg TaskID ret
        else []) := by
  unfold ActivateTask
  rw [hbody]
  by_cases hh : cfg.HOOK_ERRORHOOK = true <;> by_cases hr : ret = StatusType.E_OK <;>
    by_cases hf : k2.ErrorHookRunning = 1 <;> simp [mustReport, hh, hr, hf]

theorem mustSchedule_of_ne (cfg : Config) (caller : Caller) (ret : StatusType)
    (h : ret ≠ StatusType.E_OK) : mustSchedule cfg caller ret = false := by
  simp [mustSchedule, h]

theorem mustReport_E_OK (cfg : Config) (k : Kernel) :
    mustReport cfg k StatusType.E_OK = false := by
  simp [mustReport]

/-! ### Inversion of the critical section -/

theorem critical_inv (cfg : Config) (TaskID : TaskType) (k kc : Kernel) (ret : StatusType)
    (tc : List Effect) (h : ActivateTask_critical cfg TaskID k = some (ret, kc, tc)) :
    ∃ tv, k.TasksVar[TaskID]? = some tv ∧
      ((ret = StatusType.E_OS_LIMIT ∧ kc = k ∧ tc = emptyCritical
          ∧ tv.State ≠ TaskStateType.TASK_ST_SUSPENDED) ∨
       (ret = StatusType.E_OK ∧ tv.State = TaskStateType.TASK_ST_SUSPENDED
          ∧ kc = { k with
              TasksVar := k.TasksVar.set TaskID
                { tv with Activations := incrActivations cfg tv.Activations,
                          State := TaskStateType.TASK_ST_READY, Events := 0 }
              Ready := AddReady TaskID k.Ready }
          ∧ tc = [Effect.IntSecure_Start,
              Effect.StoreActivations TaskID (incrActivations cfg tv.Activations),
              Effect.StoreState TaskID TaskStateType.TASK_ST_READY,
              Effect.StoreEvents TaskID 0,
              Effect.AddReady TaskID,
              Effect.IntSecure_End]) ∨
       (ret = StatusType.E_OK ∧ tv.State ≠ TaskStateType.TASK_ST_SUSPENDED
          ∧ (∃ d, cfg.TasksConst[TaskID]? = some d ∧ d.Extended = false
              ∧ tv.Activations < d.MaxActivations)
          ∧ kc = { k with
              TasksVar := k.TasksVar.set TaskID
                { tv with Activations := incrActivations cfg tv.Activations }
              Ready := AddReady TaskID k.Ready }
          ∧ tc = [Effect.IntSecure_Start,
              Effect.StoreActivations TaskID (incrActivations cfg tv.Activations),
              Effect.AddReady TaskID,
              Effect.IntSecure_End])) := by
  cases hv : k.TasksVar[TaskID]? with
  | none => simp [ActivateTask_critical, hv] at h
  | some tv =>
    refine ⟨tv, rfl, ?_⟩
    by_cases hs : tv.State = TaskStateType.TASK_ST_SUSPENDED
    · rw [critical_suspended cfg TaskID k tv hv hs] at h
      simp only [Option.some.injEq, Prod.mk.injEq] at h
      exact Or.inr (Or.inl ⟨h.1.symm, hs, h.2.1.symm, h.2.2.symm⟩)
    · cases hc : cfg.TasksConst[TaskID]? with
      | none => simp [ActivateTask_critical, hv, hs, hc] at h
      | some d =>
        by_cases he : d.Extended = true
        · rw [critical_extended cfg TaskID k tv d hv hc hs he] at h
          simp only [Option.some.injEq, Prod.mk.injEq] at h
          exact Or.inl ⟨h.1.symm, h.2.1.symm, h.2.2.symm, hs⟩
        · have he1 : d.Extended = false := by simpa using he
          by_cases hlt : tv.Activations < d.MaxActivations
          · rw [critical_repeat cfg TaskID k tv d hv hc hs he1 hlt] at h
            simp only [Option.some.injEq, Prod.mk.injEq] at h
            exact Or.inr (Or.inr ⟨h.1.symm, hs, ⟨d, rfl, he1, hlt⟩, h.2.1.symm, h.2.2.symm⟩)
          · rw [critical_limit cfg TaskID k tv d hv hc hs he1 hlt] at h
            simp only [Option.some.injEq, Prod.mk.injEq] at h
            exact Or.inl ⟨h.1.symm, h.2.1.symm, h.2.2.symm, hs⟩

theorem critical_facts (cfg : Config) (TaskID : TaskType) (k kc : Kernel) (ret : StatusType)
    (tc : List Effect) (h : ActivateTask_critical cfg TaskID k = some (ret, kc, tc)) :
    (ret = StatusType.E_OK ∨ ret = StatusType.E_OS_LIMIT)
      ∧ (ret ≠ StatusType.E_OK → kc = k)
      ∧ Effect.Schedule ∉ tc
      ∧ (∀ e ∈ ErrorReport cfg TaskID ret, e ∉ tc) := by
  obtain ⟨tv, -, h1 | h1 | h1⟩ := critical_inv cfg TaskID k kc ret tc h
  · obtain ⟨hr, hk, ht, -⟩ := h1
    subst hr ht
    refine ⟨Or.inr rfl, fun _ => hk, by simp [emptyCritical], ?_⟩
    intro e he; simp [ErrorReport] at he
    rcases he with h | h | h | h | h <;> simp [h, emptyCritical]
  · obtain ⟨hr, -, -, ht⟩ := h1
    subst hr ht
    refine ⟨Or.inl rfl, fun h => absurd rfl h, by simp, ?_⟩
    intro e he; simp [ErrorReport] at he
    rcases he with h | h | h | h | h <;> simp [h]
  · obtain ⟨hr, -, -, -, ht⟩ := h1
    subst hr ht
    refine ⟨Or.inl rfl, fun h => absurd rfl h, by simp, ?_⟩
    intro e he; simp [ErrorReport] at he
    rcases he with h | h | h | h | h <;> simp [h]

theorem critical_defined (cfg : Config) (TaskID : TaskType) (k : Kernel)
    (hid : TaskID < cfg.TASKS_COUNT) (hcfg : cfg.wf) (hk : k.wf cfg) :
    ∃ ret kc tc, ActivateTask_critical cfg TaskID k = some (ret, kc, tc) := by
  have h1 : TaskID < k.TasksVar.length := by rw [hk]; exact hid
  have h2 : TaskID < cfg.TasksConst.length := by rw [hcfg]; exact hid
  have hv := List.getElem?_eq_getElem h1
  have hc := List.getElem?_eq_getElem h2
  by_cases hs : (k.TasksVar[TaskID]).State = TaskStateType.TASK_ST_SUSPENDED
  · exact ⟨_, _, _, critical_suspended cfg TaskID k _ hv hs⟩
  · by_cases he : (cfg.TasksConst[TaskID]).Extended = true
    · exact ⟨_, _, _, critical_extended cfg TaskID k _ _ hv hc hs he⟩
    · have he1 : (cfg.TasksConst[TaskID]).Extended = false := by simpa using he
      by_cases hlt : (k.TasksVar[TaskID]).Activations < (cfg.TasksConst[TaskID]).MaxActivations
      · exact ⟨_, _, _, critical_repeat cfg TaskID k _ _ hv hc hs he1 hlt⟩
      · exact ⟨_, _, _, critical_limit cfg TaskID k _ _ hv hc hs he1 hlt⟩

/-! ### The shape of every defined call -/

theorem mustSchedule_iff (cfg : Config) (caller : Caller) (ret : StatusType) :
    mustSchedule cfg caller ret = true ↔
      caller.GetCallingContext = ContextType.CONTEXT_TASK
        ∧ (∃ rc, cfg.TasksConst[caller.GetRunningTask]? = some rc ∧ rc.Preemtive = true)
        ∧ ret = StatusType.E_OK := by
  simp [mustSchedule, and_assoc]

theorem mustReport_iff (cfg : Config) (k : Kernel) (ret : StatusType) :
    mustReport cfg k ret = true ↔
      cfg.HOOK_ERRORHOOK = true ∧ ret ≠ StatusType.E_OK ∧ k.ErrorHookRunning ≠ 1 := by
  simp [mustReport, and_assoc]

/-- Every call on a well-formed input returns, and its steps are those of the
critical section (none for an invalid identifier), then `Schedule` if
`mustSchedule`, then the error report if `mustReport`. -/
theorem ActivateTask_shape (cfg : Config) (Schedule : Kernel → Kernel) (caller : Caller)
    (TaskID : TaskType) (k : Kernel)
    (hdef : cfg.ERROR_CHECKING_EXTENDED = true ∨ TaskID < cfg.TASKS_COUNT)
    (hcfg : cfg.wf) (hk : k.wf cfg) (hcaller : caller.ok cfg) :
    ∃ ret kc tc,
      ((cfg.ERROR_CHECKING_EXTENDED = true ∧ cfg.TASKS_COUNT ≤ TaskID
          ∧ ret = StatusType.E_OS_ID ∧ kc = k ∧ tc = []) ∨
        (TaskID < cfg.TASKS_COUNT ∧ ActivateTask_critical cfg TaskID k = some (ret, kc, tc)))
      ∧ ActivateTask cfg Schedule caller TaskID k =
          some (ret, if mustSchedule cfg caller ret = true then Schedule kc else kc,
            (tc ++ if mustSchedule cfg caller ret = true then [Effect.Schedule] else [])
              ++ if mustReport cfg k ret = true then ErrorReport cfg TaskID ret else [])
      ∧ (ret ≠ StatusType.E_OK → kc = k)
      ∧ Effect.Schedule ∉ tc
      ∧ (∀ e ∈ ErrorReport cfg TaskID ret, e ∉ tc) := by
  by_cases hid : TaskID < cfg.TASKS_COUNT
  · obtain ⟨ret, kc, tc, hcrit⟩ := critical_defined cfg TaskID k hid hcfg hk
    obtain ⟨-, hkeep, hns, hnr⟩ := critical_facts cfg TaskID k kc ret tc hcrit
    have hb := body_of_critical cfg Schedule caller TaskID k _ _ _ hid hcaller hcrit
    have ha := ActivateTask_of_body cfg Schedule caller TaskID k _ _ _ hb
    refine ⟨ret, kc, tc, Or.inr ⟨hid, hcrit⟩, ?_, hkeep, hns, hnr⟩
    rw [ha]
    by_cases hr : ret = StatusType.E_OK
    · subst hr; simp [mustReport_E_OK]
    · rw [mustSchedule_of_ne cfg caller ret hr, hkeep hr]; simp
  · have hext : cfg.ERROR_CHECKING_EXTENDED = true := hdef.resolve_right hid
    have hge : cfg.TASKS_COUNT ≤ TaskID := Nat.le_of_not_lt hid
    have hb : ActivateTask_body cfg Schedule caller TaskID k =
        some (StatusType.E_OS_ID, k, []) := by
      simp [ActivateTask_body, hext, hge]
    have ha := ActivateTask_of_body cfg Schedule caller TaskID k _ _ _ hb
    refine ⟨StatusType.E_OS_ID, k, [], Or.inl ⟨hext, hge, rfl, rfl, rfl⟩, ?_,
      fun _ => rfl, by simp, by simp⟩
    rw [ha, mustSchedule_of_ne cfg caller _ (by decide)]; simp

/-! ### The status of a defined call -/

theorem body_status (cfg : Config) (Schedule : Kernel → Kernel) (caller : Caller)
    (TaskID : TaskType) (k k2 : Kernel) (ret : StatusType) (t2 : List Effect)
    (h : ActivateTask_body cfg Schedule caller TaskID k = some (ret, k2, t2)) :
    (cfg.ERROR_CHECKING_EXTENDED = true ∧ cfg.TASKS_COUNT ≤ TaskID
        ∧ ret = StatusType.E_OS_ID) ∨
      (¬ (cfg.ERROR_CHECKING_EXTENDED = true ∧ cfg.TASKS_COUNT ≤ TaskID)
        ∧ ∃ kc tc, ActivateTask_critical cfg TaskID k = some (ret, kc, tc)) := by
  unfold ActivateTask_body at h
  by_cases hfirst : cfg.ERROR_CHECKING_EXTENDED = true ∧ cfg.TASKS_COUNT ≤ TaskID
  · rw [if_pos hfirst] at h
    simp only [Option.some.injEq, Prod.mk.injEq] at h
    exact Or.inl ⟨hfirst.1, hfirst.2, h.1.symm⟩
  · rw [if_neg hfirst] at h
    refine Or.inr ⟨hfirst, ?_⟩
    cases hcrit : ActivateTask_critical cfg TaskID k with
    | none => rw [hcrit] at h; simp at h
    | some r =>
      obtain ⟨ret1, kc, tc⟩ := r
      rw [hcrit] at h
      refine ⟨kc, tc, ?_⟩
      have hret : ret1 = ret := by
        by_cases hctx : caller.GetCallingContext = ContextType.CONTEXT_TASK
        · cases hrc : cfg.TasksConst[caller.GetRunningTask]? with
          | none => simp [hctx, hrc] at h
          | some rc =>
            by_cases hp : rc.Preemtive = true ∧ ret1 = StatusType.E_OK
            · simp only [hctx, hrc, hp, and_self, if_true, Option.some.injEq,
                Prod.mk.injEq] at h
              rw [← h.1]; exact hp.2
            · simp only [hctx, hrc, if_true, if_neg hp, Option.some.injEq,
                Prod.mk.injEq] at h
              exact h.1
        · simp only [if_neg hctx, Option.some.injEq, Prod.mk.injEq] at h
          exact h.1
      rw [hret]

theorem ActivateTask_status (cfg : Config) (Schedule : Kernel → Kernel) (caller : Caller)
    (TaskID : TaskType) (k k1 : Kernel) (ret : StatusType) (t : List Effect)
    (h : ActivateTask cfg Schedule caller TaskID k = some (ret, k1, t)) :
    ∃ t2, ActivateTask_body cfg Schedule caller TaskID k = some (ret, k1, t2) := by
  cases hb : ActivateTask_body cfg Schedule caller TaskID k with
  | none => simp [ActivateTask, hb] at h
  | some r =>
    obtain ⟨ret2, k2, t2⟩ := r
    rw [ActivateTask_of_body cfg Schedule caller TaskID k k2 ret2 t2 hb] at h
    simp only [Option.some.injEq, Prod.mk.injEq] at h
    exact ⟨t2, by rw [h.1, h.2.1]⟩

/-! ### Sequences of calls -/

theorem schedule_keeps_count (Schedule : Kernel → Kernel)
    (hS : ∀ k, (Schedule k).TasksVar.map (fun v => v.Activations)
      = k.TasksVar.map (fun v => v.Activations))
    (k : Kernel) (i : TaskType) (tv : TaskVariableType) (hv : k.TasksVar[i]? = some tv) :
    ∃ tv1, (Schedule k).TasksVar[i]? = some tv1 ∧ tv1.Activations = tv.Activations := by
  have h := congrArg (fun l => l[i]?) (hS k)
  simp only [List.getElem?_map, hv, Option.map_some'] at h
  cases hv1 : (Schedule k).TasksVar[i]? with
  | none => rw [hv1] at h; simp at h
  | some tv1 =>
    rw [hv1] at h
    simp only [Option.map_some', Option.some.injEq] at h
    exact ⟨tv1, rfl, h⟩

theorem schedule_keeps_count_back (Schedule : Kernel → Kernel)
    (hS : ∀ k, (Schedule k).TasksVar.map (fun v => v.Activations)
      = k.TasksVar.map (fun v => v.Activations))
    (k : Kernel) (i : TaskType) (tv1 : TaskVariableType)
    (hv1 : (Schedule k).TasksVar[i]? = some tv1) :
    ∃ tv, k.TasksVar[i]? = some tv ∧ tv1.Activations = tv.Activations := by
  have h := congrArg (fun l => l[i]?) (hS k)
  simp only [List.getElem?_map, hv1, Option.map_some'] at h
  cases hv : k.TasksVar[i]? with
  | none => rw [hv] at h; simp at h
  | some tv =>
    rw [hv] at h
    simp only [Option.map_some', Option.some.injEq] at h
    exact ⟨tv, rfl, h⟩

theorem dispatch_count (i : TaskType) (k : Kernel) :
    (dispatch i k).TasksVar.map (fun v => v.Activations)
      = k.TasksVar.map (fun v => v.Activations) := by
  unfold dispatch
  cases hv : k.TasksVar[i]? with
  | none => rfl
  | some tv =>
    by_cases hs : tv.State = TaskStateType.TASK_ST_READY
    · simp only [hs, if_true]
      apply List.ext_getElem?
      intro j
      by_cases hij : i = j
      · subst hij
        simp [List.getElem?_set_self', hv]
      · simp only [List.getElem?_map, List.getElem?_set_ne hij]
    · simp only [hs, if_false]

theorem dispatch_state (i : TaskType) (k : Kernel) (j : TaskType)
    (tv tv1 : TaskVariableType) (hv : k.TasksVar[j]? = some tv)
    (hs : tv.State ≠ TaskStateType.TASK_ST_SUSPENDED)
    (hv1 : (dispatch i k).TasksVar[j]? = some tv1) :
    tv1.State ≠ TaskStateType.TASK_ST_SUSPENDED := by
  unfold dispatch at hv1
  cases hi : k.TasksVar[i]? with
  | none =>
    simp only [hi] at hv1
    rw [hv] at hv1; cases hv1; exact hs
  | some w =>
    simp only [hi] at hv1
    by_cases hr : w.State = TaskStateType.TASK_ST_READY
    · simp only [hr, if_true] at hv1
      by_cases hij : i = j
      · subst hij
        simp only [List.getElem?_set_self', hi, Option.map_eq_map, Option.map_some',
          Function.const_apply, Option.some.injEq] at hv1
        rw [← hv1]; simp
      · rw [List.getElem?_set_ne hij, hv] at hv1
        cases hv1; exact hs
    · simp only [hr, if_false] at hv1
      rw [hv] at hv1; cases hv1; exact hs

theorem Activated_finish (cfg : Config) (Schedule : Kernel → Kernel) (caller : Caller)
    (T : TaskType) (k kc : Kernel) (ret : StatusType) (tc : List Effect) (j m : Nat)
    (hid : T < cfg.TASKS_COUNT) (hcaller : caller.ok cfg)
    (hS_count : ∀ k, (Schedule k).TasksVar.map (fun v => v.Activations)
      = k.TasksVar.map (fun v => v.Activations))
    (hS_state : ∀ k tv tv1, k.TasksVar[T]? = some tv →
      tv.State ≠ TaskStateType.TASK_ST_SUSPENDED → (Schedule k).TasksVar[T]? = some tv1 →
      tv1.State ≠ TaskStateType.TASK_ST_SUSPENDED)
    (hcrit : ActivateTask_critical cfg T k = some (ret, kc, tc))
    (hkc : Activated T (j + 1) m kc) :
    ∃ k1 t, ActivateTask cfg Schedule caller T k = some (ret, k1, t)
      ∧ Activated T (j + 1) m k1
      ∧ t.count (Effect.AddReady T) = tc.count (Effect.AddReady T) := by
  have hb := body_of_critical cfg Schedule caller T k _ _ _ hid hcaller hcrit
  have ha := ActivateTask_of_body cfg Schedule caller T k _ _ _ hb
  refine ⟨_, _, ha, ?_, ?_⟩
  · by_cases hm : mustSchedule cfg caller ret = true
    · simp only [hm, if_true]
      obtain ⟨tv, hv, hcount, hstate⟩ := hkc
      have hns : tv.State ≠ TaskStateType.TASK_ST_SUSPENDED := fun h =>
        absurd (hstate.mp h) (Nat.succ_ne_zero j)
      obtain ⟨tv1, hv1, hc1⟩ := schedule_keeps_count Schedule hS_count kc T tv hv
      refine ⟨tv1, hv1, by rw [hc1, hcount], ?_⟩
      constructor
      · intro h; exact absurd h (hS_state kc tv tv1 hv hns hv1)
      · intro h; exact absurd h (Nat.succ_ne_zero j)
    · simp only [hm, if_false]
      exact hkc
  · split_ifs <;> simp [List.count_append, ErrorReport, List.count_cons]

theorem Activated_step (cfg : Config) (Schedule : Kernel → Kernel) (caller : Caller)
    (T : TaskType) (k : Kernel) (d : TaskConstType) (j : Nat)
    (hid : T < cfg.TASKS_COUNT) (hcaller : caller.ok cfg)
    (hc : cfg.TasksConst[T]? = some d) (he : d.Extended = false)
    (hm : 1 ≤ d.MaxActivations) (hfit : d.MaxActivations < 2 ^ cfg.ActivationsBits)
    (hS_count : ∀ k, (Schedule k).TasksVar.map (fun v => v.Activations)
      = k.TasksVar.map (fun v => v.Activations))
    (hS_state : ∀ k tv tv1, k.TasksVar[T]? = some tv →
      tv.State ≠ TaskStateType.TASK_ST_SUSPENDED → (Schedule k).TasksVar[T]? = some tv1 →
      tv1.State ≠ TaskStateType.TASK_ST_SUSPENDED)
    (hA : Activated T j d.MaxActivations k) :
    ∃ k1 t, ActivateTask cfg Schedule caller T k =
        some (if j < d.MaxActivations then StatusType.E_OK else StatusType.E_OS_LIMIT, k1, t)
      ∧ Activated T (j + 1) d.MaxActivations k1
      ∧ t.count (Effect.AddReady T) = if j < d.MaxActivations then 1 else 0 := by
  obtain ⟨tv, hv, hcount, hstate⟩ := hA
  have hlen : T < k.TasksVar.length := by
    rcases List.getElem?_eq_some.mp hv with ⟨h, _⟩
    exact h
  by_cases hj0 : j = 0
  · subst hj0
    have hs : tv.State = TaskStateType.TASK_ST_SUSPENDED := hstate.mpr rfl
    have hcrit := critical_suspended cfg T k tv hv hs
    have h0 : tv.Activations = 0 := by simpa using hcount
    have hinc : incrActivations cfg tv.Activations = 1 := by
      unfold incrActivations
      rw [h0]
      exact Nat.mod_eq_of_lt (by omega)
    have hlt : 0 < d.MaxActivations := hm
    obtain ⟨k1, t, ha, hA1, ht⟩ := Activated_finish cfg Schedule caller T k _ _ _ 0
      d.MaxActivations hid hcaller hS_count hS_state hcrit
      ⟨{ tv with Activations := incrActivations cfg tv.Activations,
                 State := TaskStateType.TASK_ST_READY, Events := 0 },
        by simp [hlen], by simp only [hinc]; omega, by simp⟩
    refine ⟨k1, t, ?_, hA1, ?_⟩
    · rw [if_pos hlt]; exact ha
    · rw [if_pos hlt, ht]; simp [List.count_cons]
  · have hs : tv.State ≠ TaskStateType.TASK_ST_SUSPENDED := fun h => hj0 (hstate.mp h)
    by_cases hlt : j < d.MaxActivations
    · have hcj : tv.Activations = j := by rw [hcount]; omega
      have hcrit := critical_repeat cfg T k tv d hv hc hs he (by omega)
      have hinc : incrActivations cfg tv.Activations = j + 1 := by
        unfold incrActivations
        rw [hcj]
        exact Nat.mod_eq_of_lt (by omega)
      obtain ⟨k1, t, ha, hA1, ht⟩ := Activated_finish cfg Schedule caller T k _ _ _ j
        d.MaxActivations hid hcaller hS_count hS_state hcrit
        ⟨{ tv with Activations := incrActivations cfg tv.Activations },
          by simp [hlen], by simp only [hinc]; omega, by simp [hs]⟩
      refine ⟨k1, t, ?_, hA1, ?_⟩
      · rw [if_pos hlt]; exact ha
      · rw [if_pos hlt, ht]; simp [List.count_cons]
    · have hcj : tv.Activations = d.MaxActivations := by rw [hcount]; omega
      have hcrit := critical_limit cfg T k tv d hv hc hs he (by omega)
      obtain ⟨k1, t, ha, hA1, ht⟩ := Activated_finish cfg Schedule caller T k _ _ _ j
        d.MaxActivations hid hcaller hS_count hS_state hcrit
        ⟨tv, hv, by rw [hcj]; omega, by simp [hs]⟩
      refine ⟨k1, t, ?_, hA1, ?_⟩
      · rw [if_neg hlt]; exact ha
      · rw [if_neg hlt, ht]; simp [List.count_cons]

theorem Activated_calls (cfg : Config) (Schedule : Kernel → Kernel)
    (T : TaskType) (d : TaskConstType)
    (hid : T < cfg.TASKS_COUNT)
    (hc : cfg.TasksConst[T]? = some d) (he : d.Extended = false)
    (hm : 1 ≤ d.MaxActivations) (hfit : d.MaxActivations < 2 ^ cfg.ActivationsBits)
    (hS_count : ∀ k, (Schedule k).TasksVar.map (fun v => v.Activations)
      = k.TasksVar.map (fun v => v.Activations))
    (hS_state : ∀ k tv tv1, k.TasksVar[T]? = some tv →
      tv.State ≠ TaskStateType.TASK_ST_SUSPENDED → (Schedule k).TasksVar[T]? = some tv1 →
      tv1.State ≠ TaskStateType.TASK_ST_SUSPENDED) :
    ∀ (callers : List Caller) (j : Nat) (k : Kernel),
      (∀ c ∈ callers, c.ok cfg) → Activated T j d.MaxActivations k →
      ∃ k1 t, ActivateTask_calls cfg Schedule (callers.map (fun c => (c, T))) k =
          some ((List.range callers.length).map
            (fun i => if j + i < d.MaxActivations then StatusType.E_OK
              else StatusType.E_OS_LIMIT), k1, t)
        ∧ Activated T (j + callers.length) d.MaxActivations k1
        ∧ t.count (Effect.AddReady T) + min j d.MaxActivations
            = min (j + callers.length) d.MaxActivations := by
  intro callers
  induction callers with
  | nil =>
    intro j k _ hA
    exact ⟨k, [], by simp [ActivateTask_calls], by simpa using hA, by simp⟩
  | cons c rest ih =>
    intro j k hok hA
    obtain ⟨k1, t1, ha, hA1, ht1⟩ := Activated_step cfg Schedule c T k d j hid
      (hok c (List.mem_cons_self _ _)) hc he hm hfit hS_count hS_state hA
    obtain ⟨k2, t2, hrest, hA2, ht2⟩ := ih (j + 1) k1
      (fun c1 h1 => hok c1 (List.mem_cons_of_mem _ h1)) hA1
    refine ⟨k2, t1 ++ t2, ?_, ?_, ?_⟩
    · simp only [List.map_cons, ActivateTask_calls, ha, hrest, List.length_cons,
        List.range_succ_eq_map, List.map_map, Nat.add_zero, Option.some.injEq,
        Prod.mk.injEq, List.cons.injEq, true_and, and_true]
      apply List.map_congr_left
      intro i _
      simp only [Function.comp, Nat.succ_eq_add_one]
      have : j + 1 + i = j + (i + 1) := by omega
      rw [this]
    · have : j + (c :: rest).length = j + 1 + rest.length := by
        simp only [List.length_cons]; omega
      rw [this]; exact hA2
    · have : j + (c :: rest).length = j + 1 + rest.length := by
        simp only [List.length_cons]; omega
      rw [this, List.count_append, ht1]
      split_ifs at * <;> omega

/-! ### The activation-count invariant -/

theorem CountInv_trace (cfg : Config) (k : Kernel) (t t1 : List Effect)
    (h : CountInv cfg k t)
    (ht : ∀ i, t1.count (Effect.AddReady i) = t.count (Effect.AddReady i)) :
    CountInv cfg k t1 := by
  refine ⟨h.1, ?_⟩
  intro i tv d hv hd
  obtain ⟨h1, h2, h3⟩ := h.2 i tv d hv hd
  exact ⟨h1, h2, by rw [ht i]; exact h3⟩

theorem CountInv_schedule (cfg : Config) (Schedule : Kernel → Kernel)
    (hS_count : ∀ k, (Schedule k).TasksVar.map (fun v => v.Activations)
      = k.TasksVar.map (fun v => v.Activations))
    (hS_state : ∀ (k : Kernel) (i : TaskType) (tv tv1 : TaskVariableType),
      k.TasksVar[i]? = some tv →
      tv.State ≠ TaskStateType.TASK_ST_SUSPENDED → (Schedule k).TasksVar[i]? = some tv1 →
      tv1.State ≠ TaskStateType.TASK_ST_SUSPENDED)
    (k : Kernel) (t : List Effect) (h : CountInv cfg k t) :
    CountInv cfg (Schedule k) t := by
  constructor
  · have hl := congrArg List.length (hS_count k)
    simp only [List.length_map] at hl
    rw [hl]; exact h.1
  · intro i tv1 d hv1 hd
    obtain ⟨tv, hv, hc⟩ := schedule_keeps_count_back Schedule hS_count k i tv1 hv1
    obtain ⟨h1, h2, h3⟩ := h.2 i tv d hv hd
    refine ⟨by rw [hc]; exact h1, ?_, by rw [hc]; exact h3⟩
    intro hs1
    rw [hc]
    apply h2
    by_contra hs
    exact hS_state k i tv tv1 hv hs hv1 hs1

theorem CountInv_critical (cfg : Config) (TaskID : TaskType) (k kc : Kernel)
    (ret : StatusType) (tc t0 : List Effect)
    (hmax : ∀ d ∈ cfg.TasksConst, 1 ≤ d.MaxActivations
      ∧ d.MaxActivations < 2 ^ cfg.ActivationsBits)
    (hcrit : ActivateTask_critical cfg TaskID k = some (ret, kc, tc))
    (h : CountInv cfg k t0) :
    CountInv cfg kc (t0 ++ tc) := by
  obtain ⟨tv, hv, hcase⟩ := critical_inv cfg TaskID k kc ret tc hcrit
  have hlen : TaskID < k.TasksVar.length := by
    rcases List.getElem?_eq_some.mp hv with ⟨h, _⟩
    exact h
  rcases hcase with ⟨-, hk, ht, -⟩ | ⟨-, hs, hk, ht⟩ | ⟨-, hs, ⟨d0, hd0, -, hlt⟩, hk, ht⟩
  · rw [hk, ht]
    exact CountInv_trace cfg k t0 _ h (by intro i; simp [emptyCritical, List.count_append])
  · subst hk ht
    refine ⟨by simp only [List.length_set]; exact h.1, ?_⟩
    intro i w d hw hd
    by_cases hi : TaskID = i
    · subst hi
      obtain ⟨-, h2, h3⟩ := h.2 TaskID tv d hv hd
      have ha0 : tv.Activations = 0 := h2 hs
      have hd1 := hmax d (List.getElem?_mem hd)
      have hinc : incrActivations cfg tv.Activations = 1 := by
        unfold incrActivations
        rw [ha0]
        exact Nat.mod_eq_of_lt (by omega)
      simp only [List.getElem?_set_self hlen, Option.some.injEq] at hw
      subst hw
      refine ⟨by simp only [hinc]; exact hd1.1, by simp, ?_⟩
      simp only [hinc, List.count_append, ← h3]
      rw [ha0]
      simp [List.count_cons]
    · simp only [List.getElem?_set_ne hi] at hw
      obtain ⟨h1, h2, h3⟩ := h.2 i w d hw hd
      refine ⟨h1, h2, ?_⟩
      rw [h3, List.count_append]
      simp [List.count_cons, hi]
  · subst hk ht
    refine ⟨by simp only [List.length_set]; exact h.1, ?_⟩
    intro i w d hw hd
    by_cases hi : TaskID = i
    · subst hi
      obtain ⟨-, -, h3⟩ := h.2 TaskID tv d hv hd
      have hdd : d0 = d := by rw [hd0] at hd; exact Option.some.inj hd
      subst hdd
      have hd1 := hmax d0 (List.getElem?_mem hd)
      have hinc : incrActivations cfg tv.Activations = tv.Activations + 1 := by
        unfold incrActivations
        exact Nat.mod_eq_of_lt (by omega)
      simp only [List.getElem?_set_self hlen, Option.some.injEq] at hw
      subst hw
      refine ⟨by simp only [hinc]; omega, fun h => absurd h hs, ?_⟩
      simp only [hinc, List.count_append, ← h3]
      simp [List.count_cons]
    · simp only [List.getElem?_set_ne hi] at hw
      obtain ⟨h1, h2, h3⟩ := h.2 i w d hw hd
      refine ⟨h1, h2, ?_⟩
      rw [h3, List.count_append]
      simp [List.count_cons, hi]

theorem CountInv_step (cfg : Config) (Schedule : Kernel → Kernel) (caller : Caller)
    (TaskID : TaskType) (k : Kernel) (t0 : List Effect)
    (hcfg : cfg.wf)
    (hmax : ∀ d ∈ cfg.TasksConst, 1 ≤ d.MaxActivations
      ∧ d.MaxActivations < 2 ^ cfg.ActivationsBits)
    (hdef : cfg.ERROR_CHECKING_EXTENDED = true ∨ TaskID < cfg.TASKS_COUNT)
    (hcaller : caller.ok cfg)
    (hS_count : ∀ k, (Schedule k).TasksVar.map (fun v => v.Activations)
      = k.TasksVar.map (fun v => v.Activations))
    (hS_state : ∀ (k : Kernel) (i : TaskType) (tv tv1 : TaskVariableType),
      k.TasksVar[i]? = some tv →
      tv.State ≠ TaskStateType.TASK_ST_SUSPENDED → (Schedule k).TasksVar[i]? = some tv1 →
      tv1.State ≠ TaskStateType.TASK_ST_SUSPENDED)
    (h : CountInv cfg k t0) :
    ∃ ret k1 t, ActivateTask cfg Schedule caller TaskID k = some (ret, k1, t)
      ∧ CountInv cfg k1 (t0 ++ t) := by
  obtain ⟨ret, kc, tc, hcase, ha, -⟩ :=
    ActivateTask_shape cfg Schedule caller TaskID k hdef hcfg h.1 hcaller
  refine ⟨ret, _, _, ha, ?_⟩
  have hkc : CountInv cfg kc (t0 ++ tc) := by
    rcases hcase with ⟨-, -, -, hk, ht⟩ | ⟨-, hcrit⟩
    · subst hk ht; simpa using h
    · exact CountInv_critical cfg TaskID k kc ret tc t0 hmax hcrit h
  have hk1 : CountInv cfg (if mustSchedule cfg caller ret = true then Schedule kc else kc)
      (t0 ++ tc) := by
    by_cases hm : mustSchedule cfg caller ret = true
    · simp only [hm, if_true]
      exact CountInv_schedule cfg Schedule hS_count hS_state kc _ hkc
    · simp only [hm, if_false]
      exact hkc
  apply CountInv_trace cfg _ _ _ hk1
  intro i
  split_ifs <;> simp [List.count_append, ErrorReport, List.count_cons]

theorem CountInv_calls (cfg : Config) (Schedule : Kernel → Kernel)
    (hcfg : cfg.wf)
    (hmax : ∀ d ∈ cfg.TasksConst, 1 ≤ d.MaxActivations
      ∧ d.MaxActivations < 2 ^ cfg.ActivationsBits)
    (hS_count : ∀ k, (Schedule k).TasksVar.map (fun v => v.Activations)
      = k.TasksVar.map (fun v => v.Activations))
    (hS_state : ∀ (k : Kernel) (i : TaskType) (tv tv1 : TaskVariableType),
      k.TasksVar[i]? = some tv →
      tv.State ≠ TaskStateType.TASK_ST_SUSPENDED → (Schedule k).TasksVar[i]? = some tv1 →
      tv1.State ≠ TaskStateType.TASK_ST_SUSPENDED) :
    ∀ (calls : List (Caller × TaskType)) (k : Kernel) (t0 : List Effect),
      (∀ c ∈ calls, c.1.ok cfg ∧
        (cfg.ERROR_CHECKING_EXTENDED = true ∨ c.2 < cfg.TASKS_COUNT)) →
      CountInv cfg k t0 →
      ∃ rets k1 t, ActivateTask_calls cfg Schedule calls k = some (rets, k1, t)
        ∧ rets.length = calls.length
        ∧ CountInv cfg k1 (t0 ++ t) := by
  intro calls
  induction calls with
  | nil =>
    intro k t0 _ h
    exact ⟨[], k, [], rfl, rfl, by simpa using h⟩
  | cons c rest ih =>
    intro k t0 hok h
    obtain ⟨caller, TaskID⟩ := c
    have hc := hok (caller, TaskID) (List.mem_cons_self _ _)
    obtain ⟨ret, k1, t1, ha, h1⟩ := CountInv_step cfg Schedule caller TaskID k t0 hcfg hmax
      hc.2 hc.1 hS_count hS_state h
    obtain ⟨rets, k2, t2, hrest, hl, h2⟩ := ih k1 (t0 ++ t1)
      (fun c1 hc1 => hok c1 (List.mem_cons_of_mem _ hc1)) h1
    refine ⟨ret :: rets, k2, t1 ++ t2, ?_, by simp [hl], ?_⟩
    · simp only [ActivateTask_calls, ha, hrest]
    · rw [← List.append_assoc]; exact h2

/-! ### The invariant of extended tasks -/

theorem dispatch_model (i : TaskType) : ScheduleModel (dispatch i) := by
  refine ⟨dispatch_count i, ?_⟩
  intro k j tv tv1 hv hv1
  constructor
  · intro h1
    by_contra hs
    exact dispatch_state i k j tv tv1 hv hs hv1 h1
  · intro hs
    unfold dispatch at hv1
    cases hi : k.TasksVar[i]? with
    | none =>
      simp only [hi] at hv1
      rw [hv] at hv1; cases hv1; exact hs
    | some w =>
      simp only [hi] at hv1
      by_cases hr : w.State = TaskStateType.TASK_ST_READY
      · simp only [hr, if_true] at hv1
        by_cases hij : i = j
        · subst hij
          rw [hi] at hv
          cases hv
          rw [hr] at hs
          exact absurd hs (by decide)
        · rw [List.getElem?_set_ne hij, hv] at hv1
          cases hv1; exact hs
      · simp only [hr, if_false] at hv1
        rw [hv] at hv1; cases hv1; exact hs

theorem ExtInv_trace (cfg : Config) (k : Kernel) (t t1 : List Effect)
    (h : ExtInv cfg k t)
    (ht : ∀ i, t1.count (Effect.AddReady i) = t.count (Effect.AddReady i)) :
    ExtInv cfg k t1 := by
  refine ⟨h.1, ?_⟩
  intro i tv d hv hd he
  obtain ⟨h1, h2, h3⟩ := h.2 i tv d hv hd he
  exact ⟨h1, h2, by rw [ht i]; exact h3⟩

theorem ExtInv_schedule (cfg : Config) (Schedule : Kernel → Kernel)
    (hS : ScheduleModel Schedule) (k : Kernel) (t : List Effect) (h : ExtInv cfg k t) :
    ExtInv cfg (Schedule k) t := by
  constructor
  · have hl := congrArg List.length (hS.1 k)
    simp only [List.length_map] at hl
    rw [hl]; exact h.1
  · intro i tv1 d hv1 hd he
    obtain ⟨tv, hv, hc⟩ := schedule_keeps_count_back Schedule hS.1 k i tv1 hv1
    obtain ⟨h1, h2, h3⟩ := h.2 i tv d hv hd he
    have hiff := hS.2 k i tv tv1 hv hv1
    refine ⟨?_, ?_, by rw [hc]; exact h3⟩
    · intro hs1; rw [hc]; exact h1 (hiff.mp hs1)
    · intro hs1; rw [hc]; exact h2 (fun hs => hs1 (hiff.mpr hs))

theorem ExtInv_critical (cfg : Config) (TaskID : TaskType) (k kc : Kernel)
    (ret : StatusType) (tc t0 : List Effect)
    (hbits : 0 < cfg.ActivationsBits)
    (hcrit : ActivateTask_critical cfg TaskID k = some (ret, kc, tc))
    (h : ExtInv cfg k t0) :
    ExtInv cfg kc (t0 ++ tc) := by
  obtain ⟨tv, hv, hcase⟩ := critical_inv cfg TaskID k kc ret tc hcrit
  have hlen : TaskID < k.TasksVar.length := by
    rcases List.getElem?_eq_some.mp hv with ⟨h, _⟩
    exact h
  rcases hcase with ⟨-, hk, ht, -⟩ | ⟨-, hs, hk, ht⟩ | ⟨-, -, ⟨d0, hd0, he0, -⟩, hk, ht⟩
  · rw [hk, ht]
    exact ExtInv_trace cfg k t0 _ h (by intro i; simp [emptyCritical, List.count_append])
  · subst hk ht
    refine ⟨by simp only [List.length_set]; exact h.1, ?_⟩
    intro i w d hw hd he
    by_cases hi : TaskID = i
    · subst hi
      obtain ⟨h1, -, h3⟩ := h.2 TaskID tv d hv hd he
      have ha0 : tv.Activations = 0 := h1 hs
      have hinc : incrActivations cfg tv.Activations = 1 := by
        unfold incrActivations
        rw [ha0]
        exact Nat.mod_eq_of_lt (Nat.one_lt_two_pow (by omega))
      simp only [List.getElem?_set_self hlen, Option.some.injEq] at hw
      subst hw
      refine ⟨by simp, fun _ => hinc, ?_⟩
      simp only [hinc, List.count_append, ← h3]
      rw [ha0]
      simp [List.count_cons]
    · simp only [List.getElem?_set_ne hi] at hw
      obtain ⟨h1, h2, h3⟩ := h.2 i w d hw hd he
      refine ⟨h1, h2, ?_⟩
      rw [h3, List.count_append]
      simp [List.count_cons, hi]
  · subst hk ht
    refine ⟨by simp only [List.length_set]; exact h.1, ?_⟩
    intro i w d hw hd he
    by_cases hi : TaskID = i
    · subst hi
      rw [hd0] at hd
      cases hd
      rw [he0] at he
      exact absurd he (by decide)
    · simp only [List.getElem?_set_ne hi] at hw
      obtain ⟨h1, h2, h3⟩ := h.2 i w d hw hd he
      refine ⟨h1, h2, ?_⟩
      rw [h3, List.count_append]
      simp [List.count_cons, hi]

theorem ExtInv_step (cfg : Config) (Schedule : Kernel → Kernel) (caller : Caller)
    (TaskID : TaskType) (k : Kernel) (t0 : List Effect)
    (hcfg : cfg.wf) (hbits : 0 < cfg.ActivationsBits)
    (hdef : cfg.ERROR_CHECKING_EXTENDED = true ∨ TaskID < cfg.TASKS_COUNT)
    (hcaller : caller.ok cfg) (hS : ScheduleModel Schedule)
    (h : ExtInv cfg k t0) :
    ∃ ret k1 t, ActivateTask cfg Schedule caller TaskID k = some (ret, k1, t)
      ∧ ExtInv cfg k1 (t0 ++ t) := by
  obtain ⟨ret, kc, tc, hcase, ha, -⟩ :=
    ActivateTask_shape cfg Schedule caller TaskID k hdef hcfg h.1 hcaller
  refine ⟨ret, _, _, ha, ?_⟩
  have hkc : ExtInv cfg kc (t0 ++ tc) := by
    rcases hcase with ⟨-, -, -, hk, ht⟩ | ⟨-, hcrit⟩
    · subst hk ht; simpa using h
    · exact ExtInv_critical cfg TaskID k kc ret tc t0 hbits hcrit h
  have hk1 : ExtInv cfg (if mustSchedule cfg caller ret = true then Schedule kc else kc)
      (t0 ++ tc) := by
    by_cases hm : mustSchedule cfg caller ret = true
    · simp only [hm, if_true]
      exact ExtInv_schedule cfg Schedule hS kc _ hkc
    · simp only [hm, if_false]
      exact hkc
  apply ExtInv_trace cfg _ _ _ hk1
  intro i
  split_ifs <;> simp [List.count_append, ErrorReport, List.count_cons]

theorem ExtInv_calls (cfg : Config) (Schedule : Kernel → Kernel)
    (hcfg : cfg.wf) (hbits : 0 < cfg.ActivationsBits) (hS : ScheduleModel Schedule) :
    ∀ (calls : List (Caller × TaskType)) (k : Kernel) (t0 : List Effect),
      (∀ c ∈ calls, c.1.ok cfg ∧
        (cfg.ERROR_CHECKING_EXTENDED = true ∨ c.2 < cfg.TASKS_COUNT)) →
      ExtInv cfg k t0 →
      ∃ rets k1 t, ActivateTask_calls cfg Schedule calls k = some (rets, k1, t)
        ∧ ExtInv cfg k1 (t0 ++ t) := by
  intro calls
  induction calls with
  | nil =>
    intro k t0 _ h
    exact ⟨[], k, [], rfl, by simpa using h⟩
  | cons c rest ih =>
    intro k t0 hok h
    obtain ⟨caller, TaskID⟩ := c
    have hc := hok (caller, TaskID) (List.mem_cons_self _ _)
    obtain ⟨ret, k1, t1, ha, h1⟩ := ExtInv_step cfg Schedule caller TaskID k t0 hcfg hbits
      hc.2 hc.1 hS h
    obtain ⟨rets, k2, t2, hrest, h2⟩ := ih k1 (t0 ++ t1)
      (fun c1 hc1 => hok c1 (List.mem_cons_of_mem _ hc1)) h1
    refine ⟨ret :: rets, k2, t1 ++ t2, ?_, ?_⟩
    · simp only [ActivateTask_calls, ha, hrest]
    · rw [← List.append_assoc]; exact h2

/-! ### The ready queue -/

theorem mem_AddReady (T i : TaskType) (q : List TaskType) :
    i ∈ AddReady T q ↔ i ∈ q ∨ i = T := by
  simp [AddReady]

theorem ReadyInv_insert (k : Kernel) (T : TaskType) (w : TaskVariableType)
    (hlen : T < k.TasksVar.length) (hinv : ReadyInv k) :
    ReadyInv { k with TasksVar := k.TasksVar.set T w, Ready := AddReady T k.Ready }
      ↔ w.State = TaskStateType.TASK_ST_READY := by
  constructor
  · intro h
    have hT := h T (by simpa using hlen)
    simp only [mem_AddReady, or_true, true_iff, List.getElem?_set_self hlen,
      Option.map_some', Option.some.injEq] at hT
    exact hT
  · intro hw i hi
    have hi1 : i < k.TasksVar.length := by simpa using hi
    by_cases hiT : T = i
    · subst hiT
      simp [mem_AddReady, List.getElem?_set_self hlen, hw]
    · have hne : i ≠ T := fun h => hiT h.symm
      simp only [mem_AddReady, hne, or_false, List.getElem?_set_ne hiT]
      exact hinv i hi1

/-! ### What the critical section changes -/

theorem critical_frame (cfg : Config) (TaskID : TaskType) (k kc : Kernel) (ret : StatusType)
    (tc : List Effect) (h : ActivateTask_critical cfg TaskID k = some (ret, kc, tc)) :
    kc.TasksVar[TaskID]?.map (fun v => v.Events)
        = k.TasksVar[TaskID]?.map
            (fun v => if v.State = TaskStateType.TASK_ST_SUSPENDED then 0 else v.Events)
      ∧ kc.TasksVar[TaskID]?.map (fun v => v.State)
        = k.TasksVar[TaskID]?.map
            (fun v => if v.State = TaskStateType.TASK_ST_SUSPENDED
              then TaskStateType.TASK_ST_READY else v.State)
      ∧ (∀ j, j ≠ TaskID → kc.TasksVar[j]? = k.TasksVar[j]?)
      ∧ kc.TasksVar.length = k.TasksVar.length
      ∧ kc.ErrorHookRunning = k.ErrorHookRunning
      ∧ ((kc.Ready = k.Ready ∧ ∀ j, Effect.AddReady j ∉ tc) ∨
          (kc.Ready = k.Ready ++ [TaskID] ∧ tc.count (Effect.AddReady TaskID) = 1
            ∧ ∀ j, Effect.AddReady j ∈ tc → j = TaskID))
      ∧ (∀ i v, Effect.StoreEvents i v ∈ tc → i = TaskID ∧ v = 0
          ∧ ∃ tv, k.TasksVar[TaskID]? = some tv
            ∧ tv.State = TaskStateType.TASK_ST_SUSPENDED)
      ∧ (∀ i s, Effect.StoreState i s ∈ tc → i = TaskID ∧ s = TaskStateType.TASK_ST_READY
          ∧ ∃ tv, k.TasksVar[TaskID]? = some tv
            ∧ tv.State = TaskStateType.TASK_ST_SUSPENDED)
      ∧ (∀ i v, Effect.StoreActivations i v ∈ tc → i = TaskID) := by
  obtain ⟨tv, hv, hcase⟩ := critical_inv cfg TaskID k kc ret tc h
  have hlen : TaskID < k.TasksVar.length := by
    rcases List.getElem?_eq_some.mp hv with ⟨h, _⟩
    exact h
  rcases hcase with ⟨-, hk, ht, hs⟩ | ⟨-, hs, hk, ht⟩ | ⟨-, hs, -, hk, ht⟩
  · rw [hk, ht]
    refine ⟨by simp [hv, hs], by simp [hv, hs], fun _ _ => rfl, rfl, rfl,
      Or.inl ⟨rfl, by simp [emptyCritical]⟩, ?_, ?_, ?_⟩ <;> simp [emptyCritical]
  · rw [hk, ht]
    refine ⟨by simp [hv, hs, List.getElem?_set_self hlen],
      by simp [hv, hs, List.getElem?_set_self hlen],
      fun j hj => List.getElem?_set_ne (fun h => hj h.symm), by simp, rfl,
      Or.inr ⟨rfl, by simp [List.count_cons], by simp⟩, ?_, ?_, by simp⟩
    · intro i v hm
      simp at hm
      exact ⟨hm.1, hm.2, tv, hv, hs⟩
    · intro i s hm
      simp at hm
      exact ⟨hm.1, hm.2, tv, hv, hs⟩
  · rw [hk, ht]
    refine ⟨by simp [hv, hs, List.getElem?_set_self hlen],
      by simp [hv, hs, List.getElem?_set_self hlen],
      fun j hj => List.getElem?_set_ne (fun h => hj h.symm), by simp, rfl,
      Or.inr ⟨rfl, by simp [List.count_cons], by simp⟩, by simp, by simp, by simp⟩

/-- The whole call on a well-formed input: the kernel state `kc` at the end of
the critical section (the input state for an invalid identifier) with
everything `critical_frame` says about it, and the state and steps at the
return. -/
theorem call_frame (cfg : Config) (Schedule : Kernel → Kernel) (caller : Caller)
    (TaskID : TaskType) (k : Kernel)
    (hdef : cfg.ERROR_CHECKING_EXTENDED = true ∨ TaskID < cfg.TASKS_COUNT)
    (hcfg : cfg.wf) (hk : k.wf cfg) (hcaller : caller.ok cfg) :
    ∃ ret kc tc,
      ActivateTask cfg Schedule caller TaskID k =
          some (ret, if mustSchedule cfg caller ret = true then Schedule kc else kc,
            (tc ++ if mustSchedule cfg caller ret = true then [Effect.Schedule] else [])
              ++ if mustReport cfg k ret = true then ErrorReport cfg TaskID ret else [])
      ∧ (TaskID < cfg.TASKS_COUNT →
          ActivateTask_critical cfg TaskID k = some (ret, kc, tc))
      ∧ (cfg.TASKS_COUNT ≤ TaskID → ret = StatusType.E_OS_ID ∧ kc = k ∧ tc = [])
      ∧ kc.TasksVar[TaskID]?.map (fun v => v.Events)
        = k.TasksVar[TaskID]?.map
            (fun v => if v.State = TaskStateType.TASK_ST_SUSPENDED then 0 else v.Events)
      ∧ kc.TasksVar[TaskID]?.map (fun v => v.State)
        = k.TasksVar[TaskID]?.map
            (fun v => if v.State = TaskStateType.TASK_ST_SUSPENDED
              then TaskStateType.TASK_ST_READY else v.State)
      ∧ (∀ j, j ≠ TaskID → kc.TasksVar[j]? = k.TasksVar[j]?)
      ∧ kc.TasksVar.length = k.TasksVar.length
      ∧ kc.ErrorHookRunning = k.ErrorHookRunning
      ∧ ((kc.Ready = k.Ready ∧ ∀ j, Effect.AddReady j ∉ tc) ∨
          (kc.Ready = k.Ready ++ [TaskID] ∧ tc.count (Effect.AddReady TaskID) = 1
            ∧ ∀ j, Effect.AddReady j ∈ tc → j = TaskID))
      ∧ (∀ i v, Effect.StoreEvents i v ∈ tc → i = TaskID ∧ v = 0
          ∧ ∃ tv, k.TasksVar[TaskID]? = some tv
            ∧ tv.State = TaskStateType.TASK_ST_SUSPENDED)
      ∧ (∀ i s, Effect.StoreState i s ∈ tc → i = TaskID ∧ s = TaskStateType.TASK_ST_READY
          ∧ ∃ tv, k.TasksVar[TaskID]? = some tv
            ∧ tv.State = TaskStateType.TASK_ST_SUSPENDED)
      ∧ (∀ i v, Effect.StoreActivations i v ∈ tc → i = TaskID) := by
  obtain ⟨ret, kc, tc, hcase, ha, -⟩ :=
    ActivateTask_shape cfg Schedule caller TaskID k hdef hcfg hk hcaller
  refine ⟨ret, kc, tc, ha, ?_⟩
  rcases hcase with ⟨-, hge, hr, hkc, ht⟩ | ⟨hid, hcrit⟩
  · have hnone : k.TasksVar[TaskID]? = none := by
      apply List.getElem?_eq_none
      rw [hk]; exact hge
    rw [hkc, ht]
    refine ⟨fun hid => absurd hge (Nat.not_le.mpr hid), fun _ => ⟨hr, rfl, rfl⟩,
      by simp [hnone], by simp [hnone], fun _ _ => rfl, rfl, rfl,
      Or.inl ⟨rfl, by simp⟩, by simp, by simp, by simp⟩
  · exact ⟨fun _ => hcrit, fun hge => absurd hge (Nat.not_le.mpr hid),
      critical_frame cfg TaskID k kc ret tc hcrit⟩

theorem mem_call_trace (cfg : Config) (TaskID : TaskType) (ret : StatusType)
    (tc : List Effect) (b1 b2 : Bool) (e : Effect)
    (he : e ∈ (tc ++ if b1 = true then [Effect.Schedule] else [])
      ++ if b2 = true then ErrorReport cfg TaskID ret else []) :
    e ∈ tc ∨ e = Effect.Schedule ∨ e ∈ ErrorReport cfg TaskID ret := by
  simp only [List.mem_append] at he
  rcases he with (he | he) | he
  · exact Or.inl he
  · cases b1 <;> simp at he
    exact Or.inr (Or.inl he)
  · cases b2 <;> simp at he
    exact Or.inr (Or.inr (by simpa using he))

/-! ### The order of the steps -/

theorem critical_trace (cfg : Config) (TaskID : TaskType) (k kc : Kernel) (ret : StatusType)
    (tc : List Effect) (h : ActivateTask_critical cfg TaskID k = some (ret, kc, tc)) :
    ∃ mid, tc = Effect.IntSecure_Start :: (mid ++ [Effect.IntSecure_End])
      ∧ (∀ e ∈ mid, e.isWrite = true) := by
  obtain ⟨tv, -, hcase⟩ := critical_inv cfg TaskID k kc ret tc h
  rcases hcase with ⟨-, -, ht, -⟩ | ⟨-, -, -, ht⟩ | ⟨-, -, -, -, ht⟩
  · exact ⟨[], by rw [ht]; rfl, by simp⟩
  · refine ⟨[Effect.StoreActivations TaskID (incrActivations cfg tv.Activations),
        Effect.StoreState TaskID TaskStateType.TASK_ST_READY,
        Effect.StoreEvents TaskID 0, Effect.AddReady TaskID], by rw [ht]; rfl, ?_⟩
    intro e he
    simp only [List.mem_cons, List.mem_singleton, List.not_mem_nil, or_false] at he
    rcases he with h | h | h | h <;> rw [h] <;> rfl
  · refine ⟨[Effect.StoreActivations TaskID (incrActivations cfg tv.Activations),
        Effect.AddReady TaskID], by rw [ht]; rfl, ?_⟩
    intro e he
    simp only [List.mem_cons, List.mem_singleton, List.not_mem_nil, or_false] at he
    rcases he with h | h <;> rw [h] <;> rfl

theorem deferred_tail (cfg : Config) (TaskID : TaskType) (ret : StatusType) (b1 b2 : Bool) :
    ∀ e ∈ (if b1 = true then [Effect.Schedule] else [])
        ++ (if b2 = true then ErrorReport cfg TaskID ret else []),
      e.isDeferred = true := by
  intro e he
  cases b1 <;> cases b2 <;> simp [ErrorReport] at he
  · rcases he with h | h | h | h | h <;> rw [h] <;> rfl
  · rw [he]; rfl
  · rcases he with h | h | h | h | h | h <;> rw [h] <;> rfl

theorem count_of_isWrite (l : List Effect) (e : Effect) (he : e.isWrite = false)
    (h : ∀ x ∈ l, x.isWrite = true) : l.count e = 0 := by
  apply List.count_eq_zero.mpr
  intro hm
  rw [h e hm] at he
  exact absurd he (by decide)

theorem count_of_isDeferred (l : List Effect) (e : Effect) (he : e.isDeferred = false)
    (h : ∀ x ∈ l, x.isDeferred = true) : l.count e = 0 := by
  apply List.count_eq_zero.mpr
  intro hm
  rw [h e hm] at he
  exact absurd he (by decide)

/-! ### Table accesses -/

theorem ActivateTask_isSome (cfg : Config) (Schedule : Kernel → Kernel) (caller : Caller)
    (TaskID : TaskType) (k : Kernel) :
    (ActivateTask cfg Schedule caller TaskID k).isSome
      = (ActivateTask_body cfg Schedule caller TaskID k).isSome := by
  cases hb : ActivateTask_body cfg Schedule caller TaskID k with
  | none => simp [ActivateTask, hb]
  | some r =>
    obtain ⟨ret, k2, t2⟩ := r
    rw [ActivateTask_of_body cfg Schedule caller TaskID k k2 ret t2 hb]
    rfl

theorem critical_isSome (cfg : Config) (TaskID : TaskType) (k : Kernel) :
    (ActivateTask_critical cfg TaskID k).isSome = true ↔
      ∃ tv, k.TasksVar[TaskID]? = some tv
        ∧ (tv.State ≠ TaskStateType.TASK_ST_SUSPENDED →
            TaskID < cfg.TasksConst.length) := by
  constructor
  · intro h
    cases hc : ActivateTask_critical cfg TaskID k with
    | none => rw [hc] at h; simp at h
    | some r =>
      obtain ⟨ret, kc, tc⟩ := r
      obtain ⟨tv, hv, hcase⟩ := critical_inv cfg TaskID k kc ret tc hc
      refine ⟨tv, hv, ?_⟩
      intro hs
      cases hd : cfg.TasksConst[TaskID]? with
      | none => simp [ActivateTask_critical, hv, hs, hd] at hc
      | some d =>
        rcases List.getElem?_eq_some.mp hd with ⟨h1, _⟩
        exact h1
  · rintro ⟨tv, hv, hd⟩
    by_cases hs : tv.State = TaskStateType.TASK_ST_SUSPENDED
    · rw [critical_suspended cfg TaskID k tv hv hs]; rfl
    · obtain ⟨d, hc⟩ : ∃ d, cfg.TasksConst[TaskID]? = some d :=
        ⟨_, List.getElem?_eq_getElem (hd hs)⟩
      by_cases he : d.Extended = true
      · rw [critical_extended cfg TaskID k tv d hv hc hs he]; rfl
      · have he1 : d.Extended = false := by simpa using he
        by_cases hlt : tv.Activations < d.MaxActivations
        · rw [critical_repeat cfg TaskID k tv d hv hc hs he1 hlt]; rfl
        · rw [critical_limit cfg TaskID k tv d hv hc hs he1 hlt]; rfl

theorem critical_accesses_index (cfg : Config) (TaskID : TaskType) (k : Kernel) :
    ∀ a ∈ critical_accesses cfg TaskID k,
      a = Access.TasksVar TaskID ∨ a = Access.TasksConst TaskID := by
  intro a ha
  unfold critical_accesses at ha
  split at ha
  · simp at ha; exact Or.inl ha
  · split at ha
    · simp at ha; exact Or.inl ha
    · split at ha
      · simp at ha; exact ha
      · split at ha
        · simp at ha; exact ha
        · split at ha
          · simp at ha; tauto
          · simp at ha; tauto

theorem critical_accesses_inTable (cfg : Config) (TaskID : TaskType) (k : Kernel) :
    (∀ a ∈ critical_accesses cfg TaskID k, a.inTable cfg k)
      ↔ (ActivateTask_critical cfg TaskID k).isSome = true := by
  rw [critical_isSome]
  cases hv : k.TasksVar[TaskID]? with
  | none =>
    have hlen : ¬ TaskID < k.TasksVar.length := by
      intro h
      rw [List.getElem?_eq_getElem h] at hv
      cases hv
    simp [critical_accesses, hv, Access.inTable, hlen]
  | some tv =>
    have hlen : TaskID < k.TasksVar.length := by
      rcases List.getElem?_eq_some.mp hv with ⟨h, _⟩
      exact h
    by_cases hs : tv.State = TaskStateType.TASK_ST_SUSPENDED
    · simp [critical_accesses, hv, hs, Access.inTable, hlen]
    · cases hd : cfg.TasksConst[TaskID]? with
      | none =>
        have hl2 : ¬ TaskID < cfg.TasksConst.length := by
          intro h
          rw [List.getElem?_eq_getElem h] at hd
          cases hd
        simp [critical_accesses, hv, hs, hd, Access.inTable, hlen, hl2]
      | some d =>
        have hl2 : TaskID < cfg.TasksConst.length := by
          rcases List.getElem?_eq_some.mp hd with ⟨h, _⟩
          exact h
        by_cases he : d.Extended = true
        · simp [critical_accesses, hv, hs, hd, he, Access.inTable, hlen, hl2]
        · by_cases hlt : tv.Activations < d.MaxActivations
          · simp [critical_accesses, hv, hs, hd, he, hlt, Access.inTable, hlen, hl2]
          · simp [critical_accesses, hv, hs, hd, he, hlt, Access.inTable, hlen, hl2]

/-- A call is defined exactly when every access it makes is inside its table. -/
theorem ActivateTask_defined_iff (cfg : Config) (Schedule : Kernel → Kernel)
    (caller : Caller) (TaskID : TaskType) (k : Kernel) :
    (ActivateTask cfg Schedule caller TaskID k).isSome = true
      ↔ ∀ a ∈ ActivateTask_accesses cfg caller TaskID k, a.inTable cfg k := by
  rw [ActivateTask_isSome]
  unfold ActivateTask_body ActivateTask_accesses
  by_cases hfirst : cfg.ERROR_CHECKING_EXTENDED = true ∧ cfg.TASKS_COUNT ≤ TaskID
  · simp [hfirst]
  · rw [if_neg hfirst, if_neg hfirst]
    have hT := critical_accesses_inTable cfg TaskID k
    cases hc : ActivateTask_critical cfg TaskID k with
    | none =>
      rw [hc] at hT
      simp only [Option.isSome_none, Bool.false_eq_true, iff_false] at hT
      simp only [Option.isSome_none, Bool.false_eq_true, false_and, if_false,
        List.append_nil, false_iff]
      exact hT
    | some r =>
      obtain ⟨ret, kc, tc⟩ := r
      rw [hc] at hT
      simp only [Option.isSome_some, iff_true] at hT
      by_cases hctx : caller.GetCallingContext = ContextType.CONTEXT_TASK
      · cases hrc : cfg.TasksConst[caller.GetRunningTask]? with
        | none =>
          have hl : ¬ caller.GetRunningTask < cfg.TasksConst.length := by
            intro h
            rw [List.getElem?_eq_getElem h] at hrc
            cases hrc
          simp only [hctx, if_true, Option.isSome_none, Bool.false_eq_true,
            Option.isSome_some, and_self, false_iff]
          intro hall
          exact hl (hall (Access.TasksConst caller.GetRunningTask) (by simp))
        | some rc =>
          have hl : caller.GetRunningTask < cfg.TasksConst.length := by
            rcases List.getElem?_eq_some.mp hrc with ⟨h, _⟩
            exact h
          have hsome : (if rc.Preemtive = true ∧ ret = StatusType.E_OK then
              some (ret, Schedule kc, tc ++ [Effect.Schedule])
              else some (ret, kc, tc)).isSome = true := by
            split <;> rfl
          simp only [hctx, if_true, hsome, Option.isSome_some, and_self, true_iff]
          intro a ha
          rcases List.mem_append.mp ha with h | h
          · exact hT a h
          · simp only [List.mem_singleton] at h
            rw [h]; exact hl
      · simp only [hctx, if_false, Option.isSome_some, and_false, List.append_nil,
          true_iff]
        exact hT

/-! ### Suspended tasks have counter 0 -/

theorem ActivateTask_inv (cfg : Config) (Schedule : Kernel → Kernel) (caller : Caller)
    (TaskID : TaskType) (k k1 : Kernel) (ret : StatusType) (t : List Effect)
    (h : ActivateTask cfg Schedule caller TaskID k = some (ret, k1, t)) :
    k1 = k ∨ ∃ kc tc, ActivateTask_critical cfg TaskID k = some (ret, kc, tc)
      ∧ (k1 = kc ∨ k1 = Schedule kc) := by
  obtain ⟨t2, hb⟩ := ActivateTask_status cfg Schedule caller TaskID k k1 ret t h
  unfold ActivateTask_body at hb
  by_cases hfirst : cfg.ERROR_CHECKING_EXTENDED = true ∧ cfg.TASKS_COUNT ≤ TaskID
  · rw [if_pos hfirst] at hb
    simp only [Option.some.injEq, Prod.mk.injEq] at hb
    exact Or.inl hb.2.1.symm
  · rw [if_neg hfirst] at hb
    right
    cases hcrit : ActivateTask_critical cfg TaskID k with
    | none => rw [hcrit] at hb; simp at hb
    | some r =>
      obtain ⟨ret1, kc, tc⟩ := r
      rw [hcrit] at hb
      by_cases hctx : caller.GetCallingContext = ContextType.CONTEXT_TASK
      · cases hrc : cfg.TasksConst[caller.GetRunningTask]? with
        | none => simp [hctx, hrc] at hb
        | some rc =>
          by_cases hp : rc.Preemtive = true ∧ ret1 = StatusType.E_OK
          · simp only [hctx, hrc, hp, and_self, if_true, Option.some.injEq,
              Prod.mk.injEq] at hb
            exact ⟨kc, tc, by rw [hp.2, ← hb.1], Or.inr hb.2.1.symm⟩
          · simp only [hctx, hrc, if_true, if_neg hp, Option.some.injEq,
              Prod.mk.injEq] at hb
            exact ⟨kc, tc, by rw [hb.1], Or.inl hb.2.1.symm⟩
      · simp only [if_neg hctx, Option.some.injEq, Prod.mk.injEq] at hb
        exact ⟨kc, tc, by rw [hb.1], Or.inl hb.2.1.symm⟩

theorem SuspendedAtZero_critical (cfg : Config) (TaskID : TaskType) (k kc : Kernel)
    (ret : StatusType) (tc : List Effect)
    (hcrit : ActivateTask_critical cfg TaskID k = some (ret, kc, tc))
    (h : SuspendedAtZero k) : SuspendedAtZero kc := by
  obtain ⟨tv, -, hcase⟩ := critical_inv cfg TaskID k kc ret tc hcrit
  rcases hcase with ⟨-, hk, -, -⟩ | ⟨-, -, hk, -⟩ | ⟨-, hs, -, hk, -⟩
  · rw [hk]; exact h
  · rw [hk]
    intro v hv hsv
    rcases List.mem_or_eq_of_mem_set hv with h1 | h1
    · exact h v h1 hsv
    · rw [h1] at hsv
      simp at hsv
  · rw [hk]
    intro v hv hsv
    rcases List.mem_or_eq_of_mem_set hv with h1 | h1
    · exact h v h1 hsv
    · rw [h1] at hsv
      exact absurd hsv hs

theorem SuspendedAtZero_schedule (Schedule : Kernel → Kernel) (hS : ScheduleModel Schedule)
    (k : Kernel) (h : SuspendedAtZero k) : SuspendedAtZero (Schedule k) := by
  intro v1 hv1 hs1
  obtain ⟨i, hi⟩ := List.mem_iff_getElem?.mp hv1
  obtain ⟨tv, hv, hc⟩ := schedule_keeps_count_back Schedule hS.1 k i v1 hi
  rw [hc]
  exact h tv (List.getElem?_mem hv) ((hS.2 k i tv v1 hv hi).mp hs1)

/-- Calls of `ActivateTask` keep the activation counter of every suspended
task at 0; with `SuspendedAtZero_boot`, every kernel state reached from the
boot state has that property. -/
theorem SuspendedAtZero_calls (cfg : Config) (Schedule : Kernel → Kernel)
    (hS : ScheduleModel Schedule) :
    ∀ (calls : List (Caller × TaskType)) (k k1 : Kernel) (rets : List StatusType)
      (t : List Effect),
      ActivateTask_calls cfg Schedule calls k = some (rets, k1, t) →
      SuspendedAtZero k → SuspendedAtZero k1 := by
  intro calls
  induction calls with
  | nil =>
    intro k k1 rets t hrun h
    simp only [ActivateTask_calls, Option.some.injEq, Prod.mk.injEq] at hrun
    rw [← hrun.2.1]; exact h
  | cons c rest ih =>
    intro k k1 rets t hrun h
    obtain ⟨caller, TaskID⟩ := c
    unfold ActivateTask_calls at hrun
    cases ha : ActivateTask cfg Schedule caller TaskID k with
    | none => rw [ha] at hrun; simp at hrun
    | some r =>
      obtain ⟨ret, k2, t2⟩ := r
      rw [ha] at hrun
      simp only at hrun
      have h2 : SuspendedAtZero k2 := by
        rcases ActivateTask_inv cfg Schedule caller TaskID k k2 ret t2 ha with
          hk | ⟨kc, tc, hcrit, hk | hk⟩
        · rw [hk]; exact h
        · rw [hk]; exact SuspendedAtZero_critical cfg TaskID k kc ret tc hcrit h
        · rw [hk]
          exact SuspendedAtZero_schedule Schedule hS kc
            (SuspendedAtZero_critical cfg TaskID k kc ret tc hcrit h)
      cases hr : ActivateTask_calls cfg Schedule rest k2 with
      | none => rw [hr] at hrun; simp at hrun
      | some r2 =>
        obtain ⟨rets2, k3, t3⟩ := r2
        rw [hr] at hrun
        simp only [Option.some.injEq, Prod.mk.injEq] at hrun
        rw [← hrun.2.1]
        exact ih k2 k3 rets2 t3 hr h2

theorem SuspendedAtZero_boot (n : Nat) (q : List TaskType) (e : Nat) :
    SuspendedAtZero
      { TasksVar := List.replicate n bootTask, Ready := q, ErrorHookRunning := e } := by
  intro v hv _
  rw [List.eq_of_mem_replicate hv]
  rfl

/-- C1: with extended error checking, an identifier `TaskID >= TASKS_COUNT`
makes `ActivateTask` return `E_OS_ID` with the whole kernel state (task records
and ready queue) unchanged; the steps taken are the error report or nothing, so
`AddReady`, `IntSecure_Start` and `Schedule` do not occur and nothing is stored. -/
theorem ActivateTask_invalid_id (cfg : Config) (Schedule : Kernel → Kernel) (caller : Caller)
    (TaskID : TaskType) (k : Kernel)
    (hext : cfg.ERROR_CHECKING_EXTENDED = true) (hid : cfg.TASKS_COUNT ≤ TaskID) :
    ∃ t, ActivateTask cfg Schedule caller TaskID k = some (StatusType.E_OS_ID, k, t)
      ∧ (t = [] ∨ t = ErrorReport cfg TaskID StatusType.E_OS_ID)
      ∧ Effect.IntSecure_Start ∉ t ∧ Effect.IntSecure_End ∉ t ∧ Effect.Schedule ∉ t
      ∧ (∀ i, Effect.AddReady i ∉ t)
      ∧ (∀ i v, Effect.StoreActivations i v ∉ t)
      ∧ (∀ i s, Effect.StoreState i s ∉ t)
      ∧ (∀ i v, Effect.StoreEvents i v ∉ t) := by
  have hb : ActivateTask_body cfg Schedule caller TaskID k = some (StatusType.E_OS_ID, k, []) := by
    simp [ActivateTask_body, hext, hid]
  by_cases hh : cfg.HOOK_ERRORHOOK = true ∧ k.ErrorHookRunning ≠ 1
  · refine ⟨ErrorReport cfg TaskID StatusType.E_OS_ID, ?_, Or.inr rfl, ?_⟩
    · simp [ActivateTask, hb, hh.1, hh.2]
    · simp [ErrorReport]
  · refine ⟨[], ?_, Or.inl rfl, ?_⟩
    · simp only [ActivateTask, hb]
      rw [if_neg]
      intro h
      exact hh ⟨h.1, h.2.2⟩
    · simp

/-- C1 at scenario 3 of the specification: `Activate(10)` with four tasks. -/
theorem ActivateTask_invalid_id_witness :
    ∃ t, ActivateTask cfg4 id fromT2 10 boot4 = some (StatusType.E_OS_ID, boot4, t)
      ∧ (t = [] ∨ t = ErrorReport cfg4 10 StatusType.E_OS_ID)
      ∧ Effect.IntSecure_Start ∉ t ∧ Effect.IntSecure_End ∉ t ∧ Effect.Schedule ∉ t
      ∧ (∀ i, Effect.AddReady i ∉ t)
      ∧ (∀ i v, Effect.StoreActivations i v ∉ t)
      ∧ (∀ i s, Effect.StoreState i s ∉ t)
      ∧ (∀ i v, Effect.StoreEvents i v ∉ t) :=
  ActivateTask_invalid_id cfg4 id fromT2 10 boot4 rfl (by decide)

/-- C2: for every kernel state of the data model (every suspended task has
activation counter 0, as at boot and in every state reached from it) and every
valid `TaskID`, basic or extended, whose task is SUSPENDED, `ActivateTask`
returns `E_OK`; at the end of the critical section the task is READY, its
activation counter is 1 and its events are 0, and the ready queue is the old
one with exactly one more entry for `TaskID`, from exactly one
`AddReady(TaskID)`.  The counter has at least one bit. -/
theorem ActivateTask_suspended (cfg : Config) (Schedule : Kernel → Kernel) (caller : Caller)
    (TaskID : TaskType) (k : Kernel) (tv : TaskVariableType)
    (hid : TaskID < cfg.TASKS_COUNT) (hcaller : caller.ok cfg)
    (hbits : 0 < cfg.ActivationsBits) (hmodel : SuspendedAtZero k)
    (hv : k.TasksVar[TaskID]? = some tv)
    (hs : tv.State = TaskStateType.TASK_ST_SUSPENDED) :
    ∃ kc t, ActivateTask_critical cfg TaskID k = some (StatusType.E_OK, kc, t)
      ∧ kc.TasksVar[TaskID]? =
          some { tv with State := TaskStateType.TASK_ST_READY, Activations := 1,
                         Events := 0 }
      ∧ (∀ j, j ≠ TaskID → kc.TasksVar[j]? = k.TasksVar[j]?)
      ∧ kc.Ready = AddReady TaskID k.Ready
      ∧ kc.Ready.count TaskID = k.Ready.count TaskID + 1
      ∧ t.count (Effect.AddReady TaskID) = 1
      ∧ ActivateTask cfg Schedule caller TaskID k =
          some (StatusType.E_OK,
            if mustSchedule cfg caller StatusType.E_OK = true then Schedule kc else kc,
            t ++ if mustSchedule cfg caller StatusType.E_OK = true then [Effect.Schedule]
              else []) := by
  have hcrit := critical_suspended cfg TaskID k tv hv hs
  have hlen : TaskID < k.TasksVar.length := by
    rcases List.getElem?_eq_some.mp hv with ⟨h, _⟩
    exact h
  have h0 : tv.Activations = 0 := hmodel tv (List.getElem?_mem hv) hs
  have hinc : incrActivations cfg tv.Activations = 1 := by
    unfold incrActivations
    rw [h0]
    exact Nat.mod_eq_of_lt (Nat.one_lt_two_pow (by omega))
  refine ⟨_, _, hcrit, ?_, ?_, rfl, ?_, ?_, ?_⟩
  · simp [hlen, hinc]
  · intro j hj
    exact List.getElem?_set_ne (fun h => hj h.symm)
  · simp [AddReady, List.count_append]
  · simp [List.count_cons]
  · have hb := body_of_critical cfg Schedule caller TaskID k _ _ _ hid hcaller hcrit
    have ha := ActivateTask_of_body cfg Schedule caller TaskID k _ _ _ hb
    rw [ha, mustReport_E_OK]
    simp

/-- C2 at `Activate(T3)` from task `T2` in the state `kReady1`, where `T3` is
suspended: scenario 4 of the specification up to the reschedule. -/
theorem ActivateTask_suspended_witness :
    ∃ kc t, ActivateTask_critical cfg4 3 kReady1 = some (StatusType.E_OK, kc, t)
      ∧ kc.TasksVar[3]? =
          some { State := TaskStateType.TASK_ST_READY, Activations := 1, Events := 0 }
      ∧ (∀ j, j ≠ 3 → kc.TasksVar[j]? = kReady1.TasksVar[j]?)
      ∧ kc.Ready = AddReady 3 kReady1.Ready
      ∧ kc.Ready.count 3 = kReady1.Ready.count 3 + 1
      ∧ t.count (Effect.AddReady 3) = 1
      ∧ ActivateTask cfg4 id fromT2 3 kReady1 =
          some (StatusType.E_OK,
            if mustSchedule cfg4 fromT2 StatusType.E_OK = true then id kc else kc,
            t ++ if mustSchedule cfg4 fromT2 StatusType.E_OK = true then [Effect.Schedule]
              else []) :=
  ActivateTask_suspended cfg4 id fromT2 3 kReady1 bootTask (by decide) (by decide)
    (by decide) (by decide) rfl rfl

/-- C3: for a valid `TaskID` of a basic task that is not suspended and whose
activation counter is below `MaxActivations` (a value of the counter's type),
`ActivateTask` returns `E_OK`, the counter at the end of the critical section
is the previous one plus exactly 1, and the ready queue has one more entry for
`TaskID`, from exactly one `AddReady(TaskID)`. -/
theorem ActivateTask_repeat (cfg : Config) (Schedule : Kernel → Kernel) (caller : Caller)
    (TaskID : TaskType) (k : Kernel) (tv : TaskVariableType) (tc : TaskConstType)
    (hid : TaskID < cfg.TASKS_COUNT) (hcaller : caller.ok cfg)
    (hv : k.TasksVar[TaskID]? = some tv) (hc : cfg.TasksConst[TaskID]? = some tc)
    (hfit : tc.MaxActivations < 2 ^ cfg.ActivationsBits)
    (he : tc.Extended = false)
    (hs : tv.State ≠ TaskStateType.TASK_ST_SUSPENDED)
    (hlt : tv.Activations < tc.MaxActivations) :
    ∃ kc t, ActivateTask_critical cfg TaskID k = some (StatusType.E_OK, kc, t)
      ∧ kc.TasksVar[TaskID]? = some { tv with Activations := tv.Activations + 1 }
      ∧ kc.Ready = AddReady TaskID k.Ready
      ∧ kc.Ready.count TaskID = k.Ready.count TaskID + 1
      ∧ t.count (Effect.AddReady TaskID) = 1
      ∧ ActivateTask cfg Schedule caller TaskID k =
          some (StatusType.E_OK,
            if mustSchedule cfg caller StatusType.E_OK = true then Schedule kc else kc,
            t ++ if mustSchedule cfg caller StatusType.E_OK = true then [Effect.Schedule]
              else []) := by
  have hcrit := critical_repeat cfg TaskID k tv tc hv hc hs he hlt
  have hlen : TaskID < k.TasksVar.length := by
    rcases List.getElem?_eq_some.mp hv with ⟨h, _⟩
    exact h
  have hinc : incrActivations cfg tv.Activations = tv.Activations + 1 := by
    unfold incrActivations
    exact Nat.mod_eq_of_lt (by omega)
  refine ⟨_, _, hcrit, ?_, rfl, ?_, ?_, ?_⟩
  · simp [hlen, hinc]
  · simp [AddReady, List.count_append]
  · simp [List.count_cons]
  · have hb := body_of_critical cfg Schedule caller TaskID k _ _ _ hid hcaller hcrit
    have ha := ActivateTask_of_body cfg Schedule caller TaskID k _ _ _ hb
    rw [ha, mustReport_E_OK]
    simp

/-- C3 at the second activation of the basic task `T0`. -/
theorem ActivateTask_repeat_witness :
    ∃ kc t, ActivateTask_critical cfg4 0 kReady1 = some (StatusType.E_OK, kc, t)
      ∧ kc.TasksVar[0]? =
          some { State := TaskStateType.TASK_ST_READY, Activations := 1 + 1, Events := 0 }
      ∧ kc.Ready = AddReady 0 kReady1.Ready
      ∧ kc.Ready.count 0 = kReady1.Ready.count 0 + 1
      ∧ t.count (Effect.AddReady 0) = 1
      ∧ ActivateTask cfg4 id fromT2 0 kReady1 =
          some (StatusType.E_OK,
            if mustSchedule cfg4 fromT2 StatusType.E_OK = true then id kc else kc,
            t ++ if mustSchedule cfg4 fromT2 StatusType.E_OK = true then [Effect.Schedule]
              else []) :=
  ActivateTask_repeat cfg4 id fromT2 0 kReady1
    { State := TaskStateType.TASK_ST_READY, Activations := 1, Events := 0 }
    { StaticPriority := 5, MaxActivations := 3, Extended := false, Preemtive := false }
    (by decide) (by decide) rfl rfl (by decide) rfl (by decide) (by decide)

/-- A rejected activation: the status is `E_OS_LIMIT`, the kernel state at the
end of the critical section and at the return is the one before the call, and
the steps are the empty critical section followed by the error report, if any. -/
theorem ActivateTask_rejected (cfg : Config) (Schedule : Kernel → Kernel) (caller : Caller)
    (TaskID : TaskType) (k : Kernel)
    (hid : TaskID < cfg.TASKS_COUNT) (hcaller : caller.ok cfg)
    (hcrit : ActivateTask_critical cfg TaskID k =
      some (StatusType.E_OS_LIMIT, k, [Effect.IntSecure_Start, Effect.IntSecure_End])) :
    ∃ t, ActivateTask cfg Schedule caller TaskID k = some (StatusType.E_OS_LIMIT, k, t)
      ∧ Effect.Schedule ∉ t
      ∧ (∀ i, Effect.AddReady i ∉ t)
      ∧ (∀ i v, Effect.StoreActivations i v ∉ t)
      ∧ (∀ i s, Effect.StoreState i s ∉ t)
      ∧ (∀ i v, Effect.StoreEvents i v ∉ t) := by
  have hb := body_of_critical cfg Schedule caller TaskID k _ _ _ hid hcaller hcrit
  rw [mustSchedule_of_ne cfg caller _ (by decide)] at hb
  have ha := ActivateTask_of_body cfg Schedule caller TaskID k _ _ _ hb
  refine ⟨_, ha, ?_⟩
  by_cases hr : mustReport cfg k StatusType.E_OS_LIMIT = true <;> simp [hr, ErrorReport]

/-- C4: for a valid `TaskID` of an extended task that is READY, RUNNING or
WAITING, `ActivateTask` returns `E_OS_LIMIT`; the kernel state (state,
activation counter and events of every task, and the ready queue) is the same
at the end of the critical section and at the return as before the call;
nothing is stored, `AddReady` is not called and `Schedule` is not invoked. -/
theorem ActivateTask_extended_limit (cfg : Config) (Schedule : Kernel → Kernel)
    (caller : Caller) (TaskID : TaskType) (k : Kernel) (tv : TaskVariableType)
    (tc : TaskConstType)
    (hid : TaskID < cfg.TASKS_COUNT) (hcaller : caller.ok cfg)
    (hv : k.TasksVar[TaskID]? = some tv) (hc : cfg.TasksConst[TaskID]? = some tc)
    (he : tc.Extended = true)
    (hs : tv.State = TaskStateType.TASK_ST_READY ∨ tv.State = TaskStateType.TASK_ST_RUNNING
      ∨ tv.State = TaskStateType.TASK_ST_WAITING) :
    ActivateTask_critical cfg TaskID k =
        some (StatusType.E_OS_LIMIT, k, [Effect.IntSecure_Start, Effect.IntSecure_End])
      ∧ ∃ t, ActivateTask cfg Schedule caller TaskID k = some (StatusType.E_OS_LIMIT, k, t)
        ∧ Effect.Schedule ∉ t
        ∧ (∀ i, Effect.AddReady i ∉ t)
        ∧ (∀ i v, Effect.StoreActivations i v ∉ t)
        ∧ (∀ i s, Effect.StoreState i s ∉ t)
        ∧ (∀ i v, Effect.StoreEvents i v ∉ t) := by
  have hs1 : tv.State ≠ TaskStateType.TASK_ST_SUSPENDED := by
    rcases hs with h | h | h <;> rw [h] <;> decide
  have hcrit := critical_extended cfg TaskID k tv tc hv hc hs1 he
  exact ⟨hcrit, ActivateTask_rejected cfg Schedule caller TaskID k hid hcaller hcrit⟩

/-- C4 at the waiting extended task `T1`. -/
theorem ActivateTask_extended_limit_witness :
    ActivateTask_critical cfg4 1 kReady1 =
        some (StatusType.E_OS_LIMIT, kReady1, [Effect.IntSecure_Start, Effect.IntSecure_End])
      ∧ ∃ t, ActivateTask cfg4 id fromT2 1 kReady1 = some (StatusType.E_OS_LIMIT, kReady1, t)
        ∧ Effect.Schedule ∉ t
        ∧ (∀ i, Effect.AddReady i ∉ t)
        ∧ (∀ i v, Effect.StoreActivations i v ∉ t)
        ∧ (∀ i s, Effect.StoreState i s ∉ t)
        ∧ (∀ i v, Effect.StoreEvents i v ∉ t) :=
  ActivateTask_extended_limit cfg4 id fromT2 1 kReady1
    { State := TaskStateType.TASK_ST_WAITING, Activations := 1, Events := 5 }
    { StaticPriority := 4, MaxActivations := 1, Extended := true, Preemtive := true }
    (by decide) (by decide) rfl rfl rfl (Or.inr (Or.inr rfl))

/-- C5: for a valid `TaskID` of a basic task that is not suspended and whose
activation counter equals `MaxActivations`, `ActivateTask` returns
`E_OS_LIMIT`; the kernel state (state, activation counter and events of every
task, and the ready queue) is the same at the end of the critical section and
at the return as before the call; nothing is stored and `AddReady` is not
called. -/
theorem ActivateTask_basic_limit (cfg : Config) (Schedule : Kernel → Kernel)
    (caller : Caller) (TaskID : TaskType) (k : Kernel) (tv : TaskVariableType)
    (tc : TaskConstType)
    (hid : TaskID < cfg.TASKS_COUNT) (hcaller : caller.ok cfg)
    (hv : k.TasksVar[TaskID]? = some tv) (hc : cfg.TasksConst[TaskID]? = some tc)
    (he : tc.Extended = false)
    (hs : tv.State ≠ TaskStateType.TASK_ST_SUSPENDED)
    (heq : tv.Activations = tc.MaxActivations) :
    ActivateTask_critical cfg TaskID k =
        some (StatusType.E_OS_LIMIT, k, [Effect.IntSecure_Start, Effect.IntSecure_End])
      ∧ ∃ t, ActivateTask cfg Schedule caller TaskID k = some (StatusType.E_OS_LIMIT, k, t)
        ∧ Effect.Schedule ∉ t
        ∧ (∀ i, Effect.AddReady i ∉ t)
        ∧ (∀ i v, Effect.StoreActivations i v ∉ t)
        ∧ (∀ i s, Effect.StoreState i s ∉ t)
        ∧ (∀ i v, Effect.StoreEvents i v ∉ t) := by
  have hcrit := critical_limit cfg TaskID k tv tc hv hc hs he (by omega)
  exact ⟨hcrit, ActivateTask_rejected cfg Schedule caller TaskID k hid hcaller hcrit⟩

/-- C5 at the basic task `T0` with all three activations used. -/
theorem ActivateTask_basic_limit_witness :
    ActivateTask_critical cfg4 0 kFull =
        some (StatusType.E_OS_LIMIT, kFull, [Effect.IntSecure_Start, Effect.IntSecure_End])
      ∧ ∃ t, ActivateTask cfg4 id fromT2 0 kFull = some (StatusType.E_OS_LIMIT, kFull, t)
        ∧ Effect.Schedule ∉ t
        ∧ (∀ i, Effect.AddReady i ∉ t)
        ∧ (∀ i v, Effect.StoreActivations i v ∉ t)
        ∧ (∀ i s, Effect.StoreState i s ∉ t)
        ∧ (∀ i v, Effect.StoreEvents i v ∉ t) :=
  ActivateTask_basic_limit cfg4 id fromT2 0 kFull
    { State := TaskStateType.TASK_ST_READY, Activations := 3, Events := 0 }
    { StaticPriority := 5, MaxActivations := 3, Extended := false, Preemtive := false }
    (by decide) (by decide) rfl rfl rfl (by decide) rfl

/-- C6: on every well-formed input `ActivateTask` returns, and it invokes
`Schedule` exactly once if and only if the call comes from task level, the
descriptor of the running task is marked preemptive and the result is `E_OK`;
otherwise (interrupt or error-hook level, a failure, or a non-preemptive
running task) `Schedule` is not invoked at all. -/
theorem ActivateTask_schedule_iff (cfg : Config) (Schedule : Kernel → Kernel)
    (caller : Caller) (TaskID : TaskType) (k : Kernel)
    (hdef : cfg.ERROR_CHECKING_EXTENDED = true ∨ TaskID < cfg.TASKS_COUNT)
    (hcfg : cfg.wf) (hk : k.wf cfg) (hcaller : caller.ok cfg) :
    ∃ ret k1 t, ActivateTask cfg Schedule caller TaskID k = some (ret, k1, t)
      ∧ (t.count Effect.Schedule = 1 ↔
          caller.GetCallingContext = ContextType.CONTEXT_TASK
            ∧ (∃ rc, cfg.TasksConst[caller.GetRunningTask]? = some rc ∧ rc.Preemtive = true)
            ∧ ret = StatusType.E_OK)
      ∧ (Effect.Schedule ∉ t ↔
          ¬ (caller.GetCallingContext = ContextType.CONTEXT_TASK
            ∧ (∃ rc, cfg.TasksConst[caller.GetRunningTask]? = some rc ∧ rc.Preemtive = true)
            ∧ ret = StatusType.E_OK)) := by
  obtain ⟨ret, kc, tc, -, ha, -, hns, -⟩ :=
    ActivateTask_shape cfg Schedule caller TaskID k hdef hcfg hk hcaller
  refine ⟨ret, _, _, ha, ?_, ?_⟩
  · rw [← mustSchedule_iff]
    have h0 : tc.count Effect.Schedule = 0 := List.count_eq_zero.mpr hns
    by_cases hm : mustSchedule cfg caller ret = true <;>
      by_cases hr : mustReport cfg k ret = true <;>
      simp [hm, hr, h0, List.count_append, ErrorReport, List.count_cons]
  · rw [← mustSchedule_iff]
    by_cases hm : mustSchedule cfg caller ret = true <;>
      by_cases hr : mustReport cfg k ret = true <;>
      simp [hm, hr, hns, ErrorReport]

/-- C6 at scenario 4 of the specification: `Activate(T3)` from the preemptive
running task `T2` invokes `Schedule`. -/
theorem ActivateTask_schedule_iff_witness :
    ∃ ret k1 t, ActivateTask cfg4 id fromT2 3 boot4 = some (ret, k1, t)
      ∧ (t.count Effect.Schedule = 1 ↔
          fromT2.GetCallingContext = ContextType.CONTEXT_TASK
            ∧ (∃ rc, cfg4.TasksConst[fromT2.GetRunningTask]? = some rc ∧ rc.Preemtive = true)
            ∧ ret = StatusType.E_OK)
      ∧ (Effect.Schedule ∉ t ↔
          ¬ (fromT2.GetCallingContext = ContextType.CONTEXT_TASK
            ∧ (∃ rc, cfg4.TasksConst[fromT2.GetRunningTask]? = some rc ∧ rc.Preemtive = true)
            ∧ ret = StatusType.E_OK)) :=
  ActivateTask_schedule_iff cfg4 id fromT2 3 boot4 (Or.inl rfl) (by decide) (by decide)
    (by decide)

/-- C7: on every well-formed input `ActivateTask` returns, and it invokes the
error hook (exactly once) if and only if `HOOK_ERRORHOOK` is enabled, the
result is not `E_OK` and `ErrorHookRunning` is not 1; the invocation is the
last step, directly preceded by the report of the service identifier of
`ActivateTask`, of the caller's `TaskID` and of the returned status; without
it no `SetError` step occurs. -/
theorem ActivateTask_errorhook_iff (cfg : Config) (Schedule : Kernel → Kernel)
    (caller : Caller) (TaskID : TaskType) (k : Kernel)
    (hdef : cfg.ERROR_CHECKING_EXTENDED = true ∨ TaskID < cfg.TASKS_COUNT)
    (hcfg : cfg.wf) (hk : k.wf cfg) (hcaller : caller.ok cfg) :
    ∃ ret k1 t, ActivateTask cfg Schedule caller TaskID k = some (ret, k1, t)
      ∧ (Effect.SetError_ErrorHook ∈ t ↔
          cfg.HOOK_ERRORHOOK = true ∧ ret ≠ StatusType.E_OK ∧ k.ErrorHookRunning ≠ 1)
      ∧ (Effect.SetError_ErrorHook ∈ t →
          t.count Effect.SetError_ErrorHook = 1
          ∧ k1 = k
          ∧ ∃ t0, t = t0 ++
              [Effect.SetError_Api cfg.OSServiceId_ActivateTask,
               Effect.SetError_Param1 TaskID,
               Effect.SetError_Ret ret,
               Effect.SetError_Msg "ActivateTask returns != than E_OK",
               Effect.SetError_ErrorHook]
            ∧ (∀ e ∈ ErrorReport cfg TaskID ret, e ∉ t0))
      ∧ (Effect.SetError_ErrorHook ∉ t → ∀ e ∈ ErrorReport cfg TaskID ret, e ∉ t) := by
  obtain ⟨ret, kc, tc, -, ha, hkeep, -, hnr⟩ :=
    ActivateTask_shape cfg Schedule caller TaskID k hdef hcfg hk hcaller
  have hnh : Effect.SetError_ErrorHook ∉ tc := hnr _ (by simp [ErrorReport])
  refine ⟨ret, _, _, ha, ?_, ?_, ?_⟩
  · rw [← mustReport_iff]
    by_cases hm : mustSchedule cfg caller ret = true <;>
      by_cases hr : mustReport cfg k ret = true <;>
      simp [hm, hr, hnh, ErrorReport]
  · intro hmem
    have hr : mustReport cfg k ret = true := by
      by_contra hr
      by_cases hm : mustSchedule cfg caller ret = true <;> simp [hm, hr, hnh] at hmem
    have hne : ret ≠ StatusType.E_OK := ((mustReport_iff cfg k ret).mp hr).2.1
    have hm : mustSchedule cfg caller ret = false := mustSchedule_of_ne cfg caller ret hne
    have h0 : tc.count Effect.SetError_ErrorHook = 0 := List.count_eq_zero.mpr hnh
    refine ⟨?_, ?_, tc, ?_, hnr⟩
    · simp [hm, hr, h0, List.count_append, ErrorReport, List.count_cons]
    · simp [hm, hkeep hne]
    · simp [hm, hr, ErrorReport]
  · intro hnot e he
    have hr : ¬ mustReport cfg k ret = true := by
      intro hr
      apply hnot
      simp [hr, ErrorReport]
    have hs : e ≠ Effect.Schedule := by
      simp only [ErrorReport, List.mem_cons, List.mem_singleton, List.not_mem_nil,
        or_false] at he
      rcases he with h | h | h | h | h <;> simp [h]
    by_cases hm : mustSchedule cfg caller ret = true <;> simp [hm, hr, hnr e he, hs]

/-- C7 at the rejected fourth activation of `T0`: the hook is invoked. -/
theorem ActivateTask_errorhook_iff_witness :
    ∃ ret k1 t, ActivateTask cfg4 id fromT2 0 kFull = some (ret, k1, t)
      ∧ (Effect.SetError_ErrorHook ∈ t ↔
          cfg4.HOOK_ERRORHOOK = true ∧ ret ≠ StatusType.E_OK ∧ kFull.ErrorHookRunning ≠ 1)
      ∧ (Effect.SetError_ErrorHook ∈ t →
          t.count Effect.SetError_ErrorHook = 1
          ∧ k1 = kFull
          ∧ ∃ t0, t = t0 ++
              [Effect.SetError_Api cfg4.OSServiceId_ActivateTask,
               Effect.SetError_Param1 0,
               Effect.SetError_Ret ret,
               Effect.SetError_Msg "ActivateTask returns != than E_OK",
               Effect.SetError_ErrorHook]
            ∧ (∀ e ∈ ErrorReport cfg4 0 ret, e ∉ t0))
      ∧ (Effect.SetError_ErrorHook ∉ t → ∀ e ∈ ErrorReport cfg4 0 ret, e ∉ t) :=
  ActivateTask_errorhook_iff cfg4 id fromT2 0 kFull (Or.inl rfl) (by decide) (by decide)
    (by decide)

/-- C8: `ActivateTask` returns `E_OS_ID` if and only if extended error checking
is enabled and `TaskID >= TASKS_COUNT`; with standard error checking, for every
valid `TaskID` and every well-formed kernel state and caller it returns, and
the status is `E_OK` or `E_OS_LIMIT` and not `E_OS_ID`. -/
theorem ActivateTask_E_OS_ID_iff (cfg : Config) (Schedule : Kernel → Kernel)
    (caller : Caller) (TaskID : TaskType) (k : Kernel) :
    ((∃ k1 t, ActivateTask cfg Schedule caller TaskID k = some (StatusType.E_OS_ID, k1, t))
        ↔ cfg.ERROR_CHECKING_EXTENDED = true ∧ cfg.TASKS_COUNT ≤ TaskID)
      ∧ (cfg.ERROR_CHECKING_EXTENDED = false → TaskID < cfg.TASKS_COUNT →
          cfg.wf → k.wf cfg → caller.ok cfg →
          ∃ ret k1 t, ActivateTask cfg Schedule caller TaskID k = some (ret, k1, t)
            ∧ (ret = StatusType.E_OK ∨ ret = StatusType.E_OS_LIMIT)
            ∧ ret ≠ StatusType.E_OS_ID) := by
  constructor
  · constructor
    · rintro ⟨k1, t, h⟩
      obtain ⟨t2, hb⟩ := ActivateTask_status cfg Schedule caller TaskID k k1 _ t h
      rcases body_status cfg Schedule caller TaskID k k1 _ t2 hb with h1 | ⟨-, kc, tc, hcrit⟩
      · exact ⟨h1.1, h1.2.1⟩
      · have hf := (critical_facts cfg TaskID k kc _ tc hcrit).1
        rcases hf with hf | hf <;> exact absurd hf (by decide)
    · rintro ⟨hext, hge⟩
      have hb : ActivateTask_body cfg Schedule caller TaskID k =
          some (StatusType.E_OS_ID, k, []) := by
        simp [ActivateTask_body, hext, hge]
      exact ⟨_, _, ActivateTask_of_body cfg Schedule caller TaskID k _ _ _ hb⟩
  · intro hstd hid hcfg hk hcaller
    obtain ⟨ret, kc, tc, hcase, ha, -⟩ :=
      ActivateTask_shape cfg Schedule caller TaskID k (Or.inr hid) hcfg hk hcaller
    refine ⟨ret, _, _, ha, ?_⟩
    rcases hcase with ⟨hext, -⟩ | ⟨-, hcrit⟩
    · rw [hstd] at hext; exact absurd hext (by decide)
    · have hf := (critical_facts cfg TaskID k kc ret tc hcrit).1
      refine ⟨hf, ?_⟩
      rcases hf with hf | hf <;> rw [hf] <;> decide

/-- C8 at a valid identifier in standard mode: the call returns `E_OK` or
`E_OS_LIMIT`, and `E_OS_ID` is returned exactly in extended mode for an
identifier out of range. -/
theorem ActivateTask_E_OS_ID_iff_witness :
    (((∃ k1 t, ActivateTask cfg4std id fromISR 0 kFull = some (StatusType.E_OS_ID, k1, t))
        ↔ cfg4std.ERROR_CHECKING_EXTENDED = true ∧ cfg4std.TASKS_COUNT ≤ 0)
      ∧ (∃ ret k1 t, ActivateTask cfg4std id fromISR 0 kFull = some (ret, k1, t)
            ∧ (ret = StatusType.E_OK ∨ ret = StatusType.E_OS_LIMIT)
            ∧ ret ≠ StatusType.E_OS_ID))
      ∧ (∃ k1 t, ActivateTask cfg4 id fromISR 10 kFull = some (StatusType.E_OS_ID, k1, t)) :=
  ⟨⟨(ActivateTask_E_OS_ID_iff cfg4std id fromISR 0 kFull).1,
      (ActivateTask_E_OS_ID_iff cfg4std id fromISR 0 kFull).2 rfl (by decide) (by decide)
        (by decide) (by decide)⟩,
    (ActivateTask_E_OS_ID_iff cfg4 id fromISR 10 kFull).1.mpr ⟨rfl, by decide⟩⟩

/-- C9: for a basic task `T` with `MaxActivations = m >= 1` (a value of the
counter's type) that is suspended with an activation counter of 0, and a
`Schedule` that leaves activation counters unchanged and does not return `T`
to SUSPENDED, `n` consecutive calls `ActivateTask(T)` all return; the `i`-th
call (counted from 0) returns `E_OK` when `i < m` and `E_OS_LIMIT` otherwise,
and afterwards the counter of `T` is `min n m` and exactly `min n m` calls
`AddReady(T)` have been made. -/
theorem ActivateTask_basic_sequence (cfg : Config) (Schedule : Kernel → Kernel)
    (T : TaskType) (d : TaskConstType) (k : Kernel) (tv : TaskVariableType)
    (callers : List Caller)
    (hid : T < cfg.TASKS_COUNT)
    (hc : cfg.TasksConst[T]? = some d) (he : d.Extended = false)
    (hm : 1 ≤ d.MaxActivations) (hfit : d.MaxActivations < 2 ^ cfg.ActivationsBits)
    (hS_count : ∀ k, (Schedule k).TasksVar.map (fun v => v.Activations)
      = k.TasksVar.map (fun v => v.Activations))
    (hS_state : ∀ k tv tv1, k.TasksVar[T]? = some tv →
      tv.State ≠ TaskStateType.TASK_ST_SUSPENDED → (Schedule k).TasksVar[T]? = some tv1 →
      tv1.State ≠ TaskStateType.TASK_ST_SUSPENDED)
    (hcallers : ∀ c ∈ callers, c.ok cfg)
    (hv : k.TasksVar[T]? = some tv)
    (hs : tv.State = TaskStateType.TASK_ST_SUSPENDED) (h0 : tv.Activations = 0) :
    ∃ k1 t tv1,
      ActivateTask_calls cfg Schedule (callers.map (fun c => (c, T))) k =
          some ((List.range callers.length).map
            (fun i => if i < d.MaxActivations then StatusType.E_OK
              else StatusType.E_OS_LIMIT), k1, t)
        ∧ k1.TasksVar[T]? = some tv1
        ∧ tv1.Activations = min callers.length d.MaxActivations
        ∧ t.count (Effect.AddReady T) = min callers.length d.MaxActivations := by
  have hA : Activated T 0 d.MaxActivations k := ⟨tv, hv, by simp [h0], by simp [hs]⟩
  obtain ⟨k1, t, hrun, ⟨tv1, hv1, hc1, -⟩, ht⟩ :=
    Activated_calls cfg Schedule T d hid hc he hm hfit hS_count hS_state callers 0 k
      hcallers hA
  simp only [Nat.zero_add] at hrun hc1 ht
  exact ⟨k1, t, tv1, hrun, hv1, hc1, by simpa using ht⟩

/-- C9 at scenario 1 of the specification: four activations of `T0` with
`MaxActivations = 3` give `E_OK`, `E_OK`, `E_OK`, `E_OS_LIMIT`, and the counter
after 0, 1, 2, 3 and 4 calls is 0, 1, 2, 3 and 3. -/
theorem ActivateTask_basic_sequence_witness :
    (∃ k1 t tv1,
      ActivateTask_calls cfg4 (dispatch 0)
          ([fromT2, fromISR, fromT2, fromT2].map (fun c => (c, 0))) boot4 =
          some ([StatusType.E_OK, StatusType.E_OK, StatusType.E_OK, StatusType.E_OS_LIMIT],
            k1, t)
        ∧ k1.TasksVar[0]? = some tv1
        ∧ tv1.Activations = 3
        ∧ t.count (Effect.AddReady 0) = 3)
      ∧ (List.range 5).map (fun n =>
          (ActivateTask_calls cfg4 (dispatch 0) (List.replicate n (fromT2, 0)) boot4).bind
            (fun r => r.2.1.TasksVar[0]?.map (fun v => v.Activations)))
        = [some 0, some 1, some 2, some 3, some 3] :=
  ⟨ActivateTask_basic_sequence cfg4 (dispatch 0) 0
      { StaticPriority := 5, MaxActivations := 3, Extended := false, Preemtive := false }
      boot4 bootTask [fromT2, fromISR, fromT2, fromT2]
      (by decide) rfl rfl (by decide) (by decide) (dispatch_count 0)
      (fun k tv tv1 hv hs hv1 => dispatch_state 0 k 0 tv tv1 hv hs hv1)
      (by decide) rfl rfl rfl,
    by decide⟩

/-- C10: from the boot state, with every `MaxActivations` at least 1 (and a
value of the counter's type) and `Schedule` as section 4.3 describes it (it
leaves the activation counters unchanged and neither suspends nor wakes a
task), every finite sequence of `ActivateTask` calls (any callers, any
identifiers) returns, and afterwards every task has an activation counter
that is at most its `MaxActivations`, below `2 ^ ActivationsBits`, and equal
to the number of `AddReady` calls made for the task, so the counter never
wrapped. -/
theorem ActivateTask_count_bound (cfg : Config) (Schedule : Kernel → Kernel)
    (k : Kernel) (calls : List (Caller × TaskType))
    (hcfg : cfg.wf)
    (hmax : ∀ d ∈ cfg.TasksConst, 1 ≤ d.MaxActivations
      ∧ d.MaxActivations < 2 ^ cfg.ActivationsBits)
    (hboot : k.TasksVar = List.replicate cfg.TASKS_COUNT bootTask)
    (hcalls : ∀ c ∈ calls, c.1.ok cfg ∧
      (cfg.ERROR_CHECKING_EXTENDED = true ∨ c.2 < cfg.TASKS_COUNT))
    (hS : ScheduleModel Schedule) :
    ∃ rets k1 t, ActivateTask_calls cfg Schedule calls k = some (rets, k1, t)
      ∧ rets.length = calls.length
      ∧ k1.TasksVar.length = cfg.TASKS_COUNT
      ∧ ∀ i tv d, k1.TasksVar[i]? = some tv → cfg.TasksConst[i]? = some d →
          0 ≤ tv.Activations
            ∧ tv.Activations ≤ d.MaxActivations
            ∧ tv.Activations < 2 ^ cfg.ActivationsBits
            ∧ tv.Activations = t.count (Effect.AddReady i) := by
  have h0 : CountInv cfg k [] := by
    refine ⟨by rw [hboot, List.length_replicate], ?_⟩
    intro i tv d hv _
    rw [hboot, List.getElem?_replicate] at hv
    split at hv
    · cases hv; simp [bootTask]
    · cases hv
  have hS_state : ∀ (k : Kernel) (i : TaskType) (tv tv1 : TaskVariableType),
      k.TasksVar[i]? = some tv →
      tv.State ≠ TaskStateType.TASK_ST_SUSPENDED → (Schedule k).TasksVar[i]? = some tv1 →
      tv1.State ≠ TaskStateType.TASK_ST_SUSPENDED := by
    intro k0 i tv tv1 hv hns hv1 hs1
    exact hns ((hS.2 k0 i tv tv1 hv hv1).mp hs1)
  obtain ⟨rets, k1, t, hrun, hl, hinv⟩ :=
    CountInv_calls cfg Schedule hcfg hmax hS.1 hS_state calls k [] hcalls h0
  refine ⟨rets, k1, t, hrun, hl, hinv.1, ?_⟩
  intro i tv d hv hd
  obtain ⟨h1, -, h3⟩ := hinv.2 i tv d hv hd
  have hd1 := hmax d (List.getElem?_mem hd)
  exact ⟨Nat.zero_le _, h1, by omega, by simpa using h3⟩

/-- C10 at a sequence over `cfg4` with an invalid identifier, a call from an
interrupt and rejected activations. -/
theorem ActivateTask_count_bound_witness :
    (∃ rets k1 t,
      ActivateTask_calls cfg4 (dispatch 0)
          [(fromT2, 0), (fromISR, 10), (fromT2, 1), (fromISR, 1), (fromT2, 0),
           (fromT2, 0), (fromISR, 0)] boot4
        = some (rets, k1, t)
      ∧ rets.length = 7
      ∧ k1.TasksVar.length = cfg4.TASKS_COUNT
      ∧ ∀ i tv d, k1.TasksVar[i]? = some tv → cfg4.TasksConst[i]? = some d →
          0 ≤ tv.Activations
            ∧ tv.Activations ≤ d.MaxActivations
            ∧ tv.Activations < 2 ^ cfg4.ActivationsBits
            ∧ tv.Activations = t.count (Effect.AddReady i))
      ∧ (ActivateTask_calls cfg4 (dispatch 0)
          [(fromT2, 0), (fromISR, 10), (fromT2, 1), (fromISR, 1), (fromT2, 0),
           (fromT2, 0), (fromISR, 0)] boot4).map
            (fun r => (r.1, r.2.1.TasksVar.map (fun v => v.Activations)))
          = some ([StatusType.E_OK, StatusType.E_OS_ID, StatusType.E_OK,
                   StatusType.E_OS_LIMIT, StatusType.E_OK, StatusType.E_OK,
                   StatusType.E_OS_LIMIT], [3, 1, 0, 0]) :=
  ⟨ActivateTask_count_bound cfg4 (dispatch 0) boot4
      [(fromT2, 0), (fromISR, 10), (fromT2, 1), (fromISR, 1), (fromT2, 0),
       (fromT2, 0), (fromISR, 0)]
      (by decide) (by decide) rfl (by decide) (dispatch_model 0),
    by decide⟩

/-- C11: from the boot state, with `Schedule` as section 4.3 describes it (it
keeps the activation counters and neither suspends nor wakes a task), every
finite sequence of `ActivateTask` calls returns, and afterwards every extended
task has had at most one `AddReady` call; if it is not suspended its
activation counter is 1, and every further `ActivateTask` call on it returns
`E_OS_LIMIT`, leaves the kernel state as it is and calls no `AddReady`. -/
theorem ActivateTask_extended_single (cfg : Config) (Schedule : Kernel → Kernel)
    (k : Kernel) (calls : List (Caller × TaskType))
    (hcfg : cfg.wf) (hbits : 0 < cfg.ActivationsBits)
    (hboot : k.TasksVar = List.replicate cfg.TASKS_COUNT bootTask)
    (hcalls : ∀ c ∈ calls, c.1.ok cfg ∧
      (cfg.ERROR_CHECKING_EXTENDED = true ∨ c.2 < cfg.TASKS_COUNT))
    (hS : ScheduleModel Schedule) :
    ∃ rets k1 t, ActivateTask_calls cfg Schedule calls k = some (rets, k1, t)
      ∧ ∀ i tv d, k1.TasksVar[i]? = some tv → cfg.TasksConst[i]? = some d →
          d.Extended = true →
          t.count (Effect.AddReady i) ≤ 1
            ∧ (tv.State ≠ TaskStateType.TASK_ST_SUSPENDED →
                tv.Activations = 1
                  ∧ ∀ caller : Caller, caller.ok cfg →
                      ∃ t1, ActivateTask cfg Schedule caller i k1
                          = some (StatusType.E_OS_LIMIT, k1, t1)
                        ∧ ∀ j, Effect.AddReady j ∉ t1) := by
  have h0 : ExtInv cfg k [] := by
    refine ⟨by rw [hboot, List.length_replicate], ?_⟩
    intro i tv d hv _ _
    rw [hboot, List.getElem?_replicate] at hv
    split at hv
    · cases hv; simp [bootTask]
    · cases hv
  obtain ⟨rets, k1, t, hrun, hinv⟩ :=
    ExtInv_calls cfg Schedule hcfg hbits hS calls k [] hcalls h0
  refine ⟨rets, k1, t, hrun, ?_⟩
  intro i tv d hv hd he
  obtain ⟨h1, h2, h3⟩ := hinv.2 i tv d hv hd he
  simp only [List.nil_append] at h3
  constructor
  · rw [← h3]
    by_cases hs : tv.State = TaskStateType.TASK_ST_SUSPENDED
    · rw [h1 hs]; exact Nat.zero_le 1
    · rw [h2 hs]
  · intro hs
    refine ⟨h2 hs, ?_⟩
    intro caller hcaller
    have hid : i < cfg.TASKS_COUNT := by
      rw [← hinv.1]
      rcases List.getElem?_eq_some.mp hv with ⟨h, _⟩
      exact h
    have hcrit := critical_extended cfg i k1 tv d hv hd hs he
    obtain ⟨t1, ha, -, hadd, -⟩ :=
      ActivateTask_rejected cfg Schedule caller i k1 hid hcaller hcrit
    exact ⟨t1, ha, hadd⟩

/-- C11 at scenario 2 of the specification: the first `Activate(T1)` of the
extended task `T1` returns `E_OK` and makes it READY, the second returns
`E_OS_LIMIT` and leaves the state as it is. -/
theorem ActivateTask_extended_single_witness :
    (∃ rets k1 t,
      ActivateTask_calls cfg4 (dispatch 0) [(fromT2, 1), (fromISR, 1)] boot4
        = some (rets, k1, t)
      ∧ ∀ i tv d, k1.TasksVar[i]? = some tv → cfg4.TasksConst[i]? = some d →
          d.Extended = true →
          t.count (Effect.AddReady i) ≤ 1
            ∧ (tv.State ≠ TaskStateType.TASK_ST_SUSPENDED →
                tv.Activations = 1
                  ∧ ∀ caller : Caller, caller.ok cfg4 →
                      ∃ t1, ActivateTask cfg4 (dispatch 0) caller i k1
                          = some (StatusType.E_OS_LIMIT, k1, t1)
                        ∧ ∀ j, Effect.AddReady j ∉ t1))
      ∧ (List.range 3).map (fun n =>
          (ActivateTask_calls cfg4 (dispatch 0) (List.replicate n (fromT2, 1)) boot4).map
            (fun r => (r.1, r.2.1.TasksVar[1]?)))
        = [some ([], some bootTask),
           some ([StatusType.E_OK],
             some { State := TaskStateType.TASK_ST_READY, Activations := 1, Events := 0 }),
           some ([StatusType.E_OK, StatusType.E_OS_LIMIT],
             some { State := TaskStateType.TASK_ST_READY, Activations := 1, Events := 0 })] :=
  ⟨ActivateTask_extended_single cfg4 (dispatch 0) boot4 [(fromT2, 1), (fromISR, 1)]
      (by decide) (by decide) rfl (by decide) (dispatch_model 0),
    by decide⟩

/-- C12, as stated, fails: in `kRunning` every task identifier is in the ready
queue exactly when its task is READY, and after the critical section of
`ActivateTask(T0)` the running basic task `T0` is in the ready queue while its
state is still RUNNING. -/
theorem ActivateTask_ready_membership_counterexample :
    ReadyInv kRunning ∧ 0 < cfg4.TASKS_COUNT
      ∧ ∃ kc t, ActivateTask_critical cfg4 0 kRunning = some (StatusType.E_OK, kc, t)
          ∧ 0 ∈ kc.Ready
          ∧ kc.TasksVar[0]? =
              some { State := TaskStateType.TASK_ST_RUNNING, Activations := 2, Events := 0 }
          ∧ ¬ ReadyInv kc := by
  refine ⟨by decide, by decide,
    { TasksVar :=
        [ { State := TaskStateType.TASK_ST_RUNNING, Activations := 2, Events := 0 },
          bootTask, bootTask, bootTask ],
      Ready := [0], ErrorHookRunning := 0 },
    [Effect.IntSecure_Start, Effect.StoreActivations 0 2, Effect.AddReady 0,
      Effect.IntSecure_End], ?_, by decide, rfl, by decide⟩
  decide

/-- C12, amended: for a kernel state in which every task identifier is in the
ready queue exactly when its task is READY, and a valid `TaskID`, the critical
section of `ActivateTask` returns, and the invariant holds again at its end
exactly when the task was SUSPENDED or READY, or is extended, or has used all
its activations; on the repeat activation of a RUNNING or WAITING basic task
the identifier enters the ready queue while the state stays as it was. -/
theorem ActivateTask_ready_membership (cfg : Config) (TaskID : TaskType) (k : Kernel)
    (tv : TaskVariableType) (tc : TaskConstType)
    (hv : k.TasksVar[TaskID]? = some tv) (hc : cfg.TasksConst[TaskID]? = some tc)
    (hinv : ReadyInv k) :
    ∃ ret kc t, ActivateTask_critical cfg TaskID k = some (ret, kc, t)
      ∧ (ReadyInv kc ↔
          (tv.State = TaskStateType.TASK_ST_SUSPENDED
            ∨ tv.State = TaskStateType.TASK_ST_READY
            ∨ tc.Extended = true
            ∨ tc.MaxActivations ≤ tv.Activations)) := by
  have hlen : TaskID < k.TasksVar.length := by
    rcases List.getElem?_eq_some.mp hv with ⟨h, _⟩
    exact h
  by_cases hs : tv.State = TaskStateType.TASK_ST_SUSPENDED
  · refine ⟨_, _, _, critical_suspended cfg TaskID k tv hv hs, ?_⟩
    rw [ReadyInv_insert k TaskID _ hlen hinv]
    simp [hs]
  · by_cases he : tc.Extended = true
    · refine ⟨_, _, _, critical_extended cfg TaskID k tv tc hv hc hs he, ?_⟩
      simp [hinv, he]
    · have he1 : tc.Extended = false := by simpa using he
      by_cases hlt : tv.Activations < tc.MaxActivations
      · refine ⟨_, _, _, critical_repeat cfg TaskID k tv tc hv hc hs he1 hlt, ?_⟩
        rw [ReadyInv_insert k TaskID _ hlen hinv]
        simp only [hs, he1, false_or, Bool.false_eq_true]
        constructor
        · intro h; exact Or.inl h
        · rintro (h | h)
          · exact h
          · omega
      · refine ⟨_, _, _, critical_limit cfg TaskID k tv tc hv hc hs he1 hlt, ?_⟩
        simp only [hinv, true_iff]
        exact Or.inr (Or.inr (Or.inr (by omega)))

/-- C12 at the second activation of the ready basic task `T0`. -/
theorem ActivateTask_ready_membership_witness :
    ReadyInv kReady0 ∧
    ∃ ret kc t, ActivateTask_critical cfg4 0 kReady0 = some (ret, kc, t)
      ∧ (ReadyInv kc ↔
          (TaskStateType.TASK_ST_READY = TaskStateType.TASK_ST_SUSPENDED
            ∨ TaskStateType.TASK_ST_READY = TaskStateType.TASK_ST_READY
            ∨ false = true
            ∨ 3 ≤ 1)) :=
  ⟨by decide, ActivateTask_ready_membership cfg4 0 kReady0
    { State := TaskStateType.TASK_ST_READY, Activations := 1, Events := 0 }
    { StaticPriority := 5, MaxActivations := 3, Extended := false, Preemtive := false }
    rfl rfl (by decide)⟩

/-- C13: on every well-formed input `ActivateTask` returns, and at the end of
the critical section the events of task `TaskID` are 0 if the task was
SUSPENDED before the call and otherwise equal to their value before the call
(on a repeat activation and on every failure alike); the state at the return
is that state, passed through `Schedule` if `Schedule` is invoked, so the same
holds at the return when `Schedule` leaves events as they are; and the only
store to an events field is the store of 0 to task `TaskID` when it was
SUSPENDED. -/
theorem ActivateTask_events (cfg : Config) (Schedule : Kernel → Kernel)
    (caller : Caller) (TaskID : TaskType) (k : Kernel)
    (hdef : cfg.ERROR_CHECKING_EXTENDED = true ∨ TaskID < cfg.TASKS_COUNT)
    (hcfg : cfg.wf) (hk : k.wf cfg) (hcaller : caller.ok cfg) :
    ∃ ret kc k1 t, ActivateTask cfg Schedule caller TaskID k = some (ret, k1, t)
      ∧ (TaskID < cfg.TASKS_COUNT →
          ∃ tc, ActivateTask_critical cfg TaskID k = some (ret, kc, tc))
      ∧ k1 = (if mustSchedule cfg caller ret = true then Schedule kc else kc)
      ∧ kc.TasksVar[TaskID]?.map (fun v => v.Events)
          = k.TasksVar[TaskID]?.map
              (fun v => if v.State = TaskStateType.TASK_ST_SUSPENDED then 0 else v.Events)
      ∧ ((∀ k0, (Schedule k0).TasksVar.map (fun v => v.Events)
            = k0.TasksVar.map (fun v => v.Events)) →
          k1.TasksVar[TaskID]?.map (fun v => v.Events)
            = k.TasksVar[TaskID]?.map
                (fun v => if v.State = TaskStateType.TASK_ST_SUSPENDED then 0 else v.Events))
      ∧ (∀ i v, Effect.StoreEvents i v ∈ t → i = TaskID ∧ v = 0
          ∧ ∃ tv, k.TasksVar[TaskID]? = some tv
            ∧ tv.State = TaskStateType.TASK_ST_SUSPENDED) := by
  obtain ⟨ret, kc, tc, ha, hcrit, -, hE, -, -, -, -, -, hTE, -, -⟩ :=
    call_frame cfg Schedule caller TaskID k hdef hcfg hk hcaller
  refine ⟨ret, kc, _, _, ha, fun hid => ⟨tc, hcrit hid⟩, rfl, hE, ?_, ?_⟩
  · intro hS
    by_cases hm : mustSchedule cfg caller ret = true
    · simp only [hm, if_true]
      have h := congrArg (fun l => l[TaskID]?) (hS kc)
      simp only [List.getElem?_map] at h
      rw [h]; exact hE
    · simp only [hm, if_false]
      exact hE
  · intro i v hm
    rcases mem_call_trace cfg TaskID ret tc _ _ _ hm with h | h | h
    · exact hTE i v h
    · cases h
    · simp [ErrorReport] at h

/-- C13 at the rejected activation of the waiting extended task `T1`, whose
events stay 5. -/
theorem ActivateTask_events_witness :
    ∃ ret kc k1 t, ActivateTask cfg4 id fromT2 1 kReady1 = some (ret, k1, t)
      ∧ (1 < cfg4.TASKS_COUNT →
          ∃ tc, ActivateTask_critical cfg4 1 kReady1 = some (ret, kc, tc))
      ∧ k1 = (if mustSchedule cfg4 fromT2 ret = true then id kc else kc)
      ∧ kc.TasksVar[1]?.map (fun v => v.Events) = some 5
      ∧ ((∀ k0 : Kernel, (id k0).TasksVar.map (fun v => v.Events)
            = k0.TasksVar.map (fun v => v.Events)) →
          k1.TasksVar[1]?.map (fun v => v.Events) = some 5)
      ∧ (∀ i v, Effect.StoreEvents i v ∈ t → i = 1 ∧ v = 0
          ∧ ∃ tv, kReady1.TasksVar[1]? = some tv
            ∧ tv.State = TaskStateType.TASK_ST_SUSPENDED) :=
  ActivateTask_events cfg4 id fromT2 1 kReady1 (Or.inl rfl) (by decide) (by decide)
    (by decide)

/-- C14: on every well-formed input `ActivateTask` returns, and at the end of
the critical section the record of every task other than `TaskID` is the one
before the call, the table has the same length, and the ready queue is the
old one or the old one followed by one entry `TaskID`; all steps that store
to a record store to the record of `TaskID`, and `AddReady` is called at most
once and only for `TaskID`.  The descriptors are the configuration, which no
step stores to. -/
theorem ActivateTask_frame (cfg : Config) (Schedule : Kernel → Kernel)
    (caller : Caller) (TaskID : TaskType) (k : Kernel)
    (hdef : cfg.ERROR_CHECKING_EXTENDED = true ∨ TaskID < cfg.TASKS_COUNT)
    (hcfg : cfg.wf) (hk : k.wf cfg) (hcaller : caller.ok cfg) :
    ∃ ret kc k1 t, ActivateTask cfg Schedule caller TaskID k = some (ret, k1, t)
      ∧ (TaskID < cfg.TASKS_COUNT →
          ∃ tc, ActivateTask_critical cfg TaskID k = some (ret, kc, tc))
      ∧ k1 = (if mustSchedule cfg caller ret = true then Schedule kc else kc)
      ∧ (∀ j, j ≠ TaskID → kc.TasksVar[j]? = k.TasksVar[j]?)
      ∧ kc.TasksVar.length = k.TasksVar.length
      ∧ (kc.Ready = k.Ready ∨ kc.Ready = k.Ready ++ [TaskID])
      ∧ k.Ready <+: kc.Ready
      ∧ t.count (Effect.AddReady TaskID) ≤ 1
      ∧ (∀ j, Effect.AddReady j ∈ t → j = TaskID)
      ∧ (∀ i v, Effect.StoreActivations i v ∈ t → i = TaskID)
      ∧ (∀ i s, Effect.StoreState i s ∈ t → i = TaskID)
      ∧ (∀ i v, Effect.StoreEvents i v ∈ t → i = TaskID) := by
  obtain ⟨ret, kc, tc, ha, hcrit, -, -, -, hF, hL, -, hR, hTE, hTS, hTA⟩ :=
    call_frame cfg Schedule caller TaskID k hdef hcfg hk hcaller
  have hcount : ∀ (b1 b2 : Bool),
      ((tc ++ if b1 = true then [Effect.Schedule] else [])
        ++ if b2 = true then ErrorReport cfg TaskID ret else []).count
          (Effect.AddReady TaskID) = tc.count (Effect.AddReady TaskID) := by
    intro b1 b2
    cases b1 <;> cases b2 <;> simp [List.count_append, ErrorReport, List.count_cons]
  refine ⟨ret, kc, _, _, ha, fun hid => ⟨tc, hcrit hid⟩, rfl, hF, hL, ?_, ?_, ?_, ?_, ?_,
    ?_, ?_⟩
  · rcases hR with h | h
    · exact Or.inl h.1
    · exact Or.inr h.1
  · rcases hR with h | h
    · rw [h.1]
    · rw [h.1]; exact List.prefix_append _ _
  · rw [hcount]
    rcases hR with h | h
    · rw [List.count_eq_zero.mpr (h.2 TaskID)]; exact Nat.zero_le 1
    · rw [h.2.1]
  · intro j hm
    rcases mem_call_trace cfg TaskID ret tc _ _ _ hm with h1 | h1 | h1
    · rcases hR with h | h
      · exact absurd h1 (h.2 j)
      · exact h.2.2 j h1
    · cases h1
    · simp [ErrorReport] at h1
  · intro i v hm
    rcases mem_call_trace cfg TaskID ret tc _ _ _ hm with h1 | h1 | h1
    · exact hTA i v h1
    · cases h1
    · simp [ErrorReport] at h1
  · intro i v hm
    rcases mem_call_trace cfg TaskID ret tc _ _ _ hm with h1 | h1 | h1
    · exact (hTS i v h1).1
    · cases h1
    · simp [ErrorReport] at h1
  · intro i v hm
    rcases mem_call_trace cfg TaskID ret tc _ _ _ hm with h1 | h1 | h1
    · exact (hTE i v h1).1
    · cases h1
    · simp [ErrorReport] at h1

/-- C14 at the second activation of `T0` in `kReady1`. -/
theorem ActivateTask_frame_witness :
    ∃ ret kc k1 t, ActivateTask cfg4 id fromT2 0 kReady1 = some (ret, k1, t)
      ∧ (0 < cfg4.TASKS_COUNT →
          ∃ tc, ActivateTask_critical cfg4 0 kReady1 = some (ret, kc, tc))
      ∧ k1 = (if mustSchedule cfg4 fromT2 ret = true then id kc else kc)
      ∧ (∀ j, j ≠ 0 → kc.TasksVar[j]? = kReady1.TasksVar[j]?)
      ∧ kc.TasksVar.length = kReady1.TasksVar.length
      ∧ (kc.Ready = kReady1.Ready ∨ kc.Ready = kReady1.Ready ++ [0])
      ∧ kReady1.Ready <+: kc.Ready
      ∧ t.count (Effect.AddReady 0) ≤ 1
      ∧ (∀ j, Effect.AddReady j ∈ t → j = 0)
      ∧ (∀ i v, Effect.StoreActivations i v ∈ t → i = 0)
      ∧ (∀ i s, Effect.StoreState i s ∈ t → i = 0)
      ∧ (∀ i v, Effect.StoreEvents i v ∈ t → i = 0) :=
  ActivateTask_frame cfg4 id fromT2 0 kReady1 (Or.inl rfl) (by decide) (by decide)
    (by decide)

/-- C15: on every well-formed input `ActivateTask` returns.  For a valid
`TaskID` its steps are `IntSecure_Start`, then only stores to a task record
and `AddReady` calls, then `IntSecure_End`, then only `Schedule` and the error
report; so `IntSecure_Start` and `IntSecure_End` occur exactly once each
(also when the result is `E_OS_LIMIT`), every store and every `AddReady` lies
between them, and `Schedule` and the error hook come after `IntSecure_End`.
On the `E_OS_ID` path `IntSecure_Start` and `IntSecure_End` do not occur and
the only steps are those of the error report. -/
theorem ActivateTask_critical_discipline (cfg : Config) (Schedule : Kernel → Kernel)
    (caller : Caller) (TaskID : TaskType) (k : Kernel)
    (hdef : cfg.ERROR_CHECKING_EXTENDED = true ∨ TaskID < cfg.TASKS_COUNT)
    (hcfg : cfg.wf) (hk : k.wf cfg) (hcaller : caller.ok cfg) :
    ∃ ret k1 t, ActivateTask cfg Schedule caller TaskID k = some (ret, k1, t)
      ∧ (TaskID < cfg.TASKS_COUNT →
          ret ≠ StatusType.E_OS_ID
            ∧ ∃ mid post,
              t = Effect.IntSecure_Start :: (mid ++ Effect.IntSecure_End :: post)
              ∧ (∀ e ∈ mid, e.isWrite = true)
              ∧ (∀ e ∈ post, e.isDeferred = true)
              ∧ t.count Effect.IntSecure_Start = 1
              ∧ t.count Effect.IntSecure_End = 1)
      ∧ (cfg.TASKS_COUNT ≤ TaskID →
          ret = StatusType.E_OS_ID
            ∧ Effect.IntSecure_Start ∉ t ∧ Effect.IntSecure_End ∉ t
            ∧ (∀ e ∈ t, e.isDeferred = true ∧ e ≠ Effect.Schedule)) := by
  obtain ⟨ret, kc, tc, hcase, ha, -⟩ :=
    ActivateTask_shape cfg Schedule caller TaskID k hdef hcfg hk hcaller
  refine ⟨ret, _, _, ha, ?_, ?_⟩
  · intro hid
    rcases hcase with ⟨-, hge, -⟩ | ⟨-, hcrit⟩
    · exact absurd hge (Nat.not_le.mpr hid)
    · obtain ⟨mid, htc, hmid⟩ := critical_trace cfg TaskID k kc ret tc hcrit
      have hret := (critical_facts cfg TaskID k kc ret tc hcrit).1
      have hpost := deferred_tail cfg TaskID ret (mustSchedule cfg caller ret)
        (mustReport cfg k ret)
      have hshape : (tc ++ if mustSchedule cfg caller ret = true then [Effect.Schedule] else [])
            ++ (if mustReport cfg k ret = true then ErrorReport cfg TaskID ret else [])
          = Effect.IntSecure_Start :: (mid ++ Effect.IntSecure_End ::
              ((if mustSchedule cfg caller ret = true then [Effect.Schedule] else [])
                ++ (if mustReport cfg k ret = true then ErrorReport cfg TaskID ret
                  else []))) := by
        rw [htc]; simp
      generalize (if mustSchedule cfg caller ret = true then [Effect.Schedule] else [])
          ++ (if mustReport cfg k ret = true then ErrorReport cfg TaskID ret else [])
        = post at hpost hshape
      have hs1 := count_of_isWrite mid Effect.IntSecure_Start rfl hmid
      have hs2 := count_of_isDeferred post Effect.IntSecure_Start rfl hpost
      have he1 := count_of_isWrite mid Effect.IntSecure_End rfl hmid
      have he2 := count_of_isDeferred post Effect.IntSecure_End rfl hpost
      refine ⟨by rcases hret with h | h <;> rw [h] <;> decide, mid, post, hshape, hmid,
        hpost, ?_, ?_⟩
      · rw [hshape]
        simp [List.count_cons, List.count_append, hs1, hs2]
      · rw [hshape]
        simp [List.count_cons, List.count_append, he1, he2]
  · intro hge
    rcases hcase with ⟨-, -, hr, -, ht⟩ | ⟨hid, -⟩
    · subst hr ht
      have hm : mustSchedule cfg caller StatusType.E_OS_ID = false :=
        mustSchedule_of_ne cfg caller _ (by decide)
      rw [hm]
      refine ⟨rfl, ?_, ?_, ?_⟩
      · cases mustReport cfg k StatusType.E_OS_ID <;> simp [ErrorReport]
      · cases mustReport cfg k StatusType.E_OS_ID <;> simp [ErrorReport]
      · intro e he
        cases hr : mustReport cfg k StatusType.E_OS_ID
        · simp [hr] at he
        · simp [hr, ErrorReport] at he
          rcases he with h | h | h | h | h <;> rw [h] <;> exact ⟨rfl, by simp⟩
    · exact absurd hge (Nat.not_le.mpr hid)

/-- C15 at the first activation of `T3` from the preemptive task `T2`. -/
theorem ActivateTask_critical_discipline_witness :
    (∃ ret k1 t, ActivateTask cfg4 id fromT2 3 boot4 = some (ret, k1, t)
      ∧ (3 < cfg4.TASKS_COUNT →
          ret ≠ StatusType.E_OS_ID
            ∧ ∃ mid post,
              t = Effect.IntSecure_Start :: (mid ++ Effect.IntSecure_End :: post)
              ∧ (∀ e ∈ mid, e.isWrite = true)
              ∧ (∀ e ∈ post, e.isDeferred = true)
              ∧ t.count Effect.IntSecure_Start = 1
              ∧ t.count Effect.IntSecure_End = 1)
      ∧ (cfg4.TASKS_COUNT ≤ 3 →
          ret = StatusType.E_OS_ID
            ∧ Effect.IntSecure_Start ∉ t ∧ Effect.IntSecure_End ∉ t
            ∧ (∀ e ∈ t, e.isDeferred = true ∧ e ≠ Effect.Schedule)))
      ∧ (ActivateTask cfg4 id fromT2 3 boot4).map (fun r => r.2.2)
          = some [Effect.IntSecure_Start, Effect.StoreActivations 3 1,
              Effect.StoreState 3 TaskStateType.TASK_ST_READY, Effect.StoreEvents 3 0,
              Effect.AddReady 3, Effect.IntSecure_End, Effect.Schedule] :=
  ⟨ActivateTask_critical_discipline cfg4 id fromT2 3 boot4 (Or.inl rfl) (by decide)
      (by decide) (by decide),
    by decide⟩

/-- C16: on every well-formed input `ActivateTask` returns, and at the end of
the critical section the state of task `TaskID` is READY if it was SUSPENDED
and otherwise the state before the call (RUNNING stays RUNNING and WAITING
stays WAITING); the only store to a state field is the store of READY to task
`TaskID` when it was SUSPENDED; so for a valid `TaskID` the task is not
SUSPENDED at the end of the critical section, nor at the return when
`Schedule` does not return a task to SUSPENDED. -/
theorem ActivateTask_state (cfg : Config) (Schedule : Kernel → Kernel)
    (caller : Caller) (TaskID : TaskType) (k : Kernel)
    (hdef : cfg.ERROR_CHECKING_EXTENDED = true ∨ TaskID < cfg.TASKS_COUNT)
    (hcfg : cfg.wf) (hk : k.wf cfg) (hcaller : caller.ok cfg) :
    ∃ ret kc k1 t, ActivateTask cfg Schedule caller TaskID k = some (ret, k1, t)
      ∧ (TaskID < cfg.TASKS_COUNT →
          ∃ tc, ActivateTask_critical cfg TaskID k = some (ret, kc, tc))
      ∧ k1 = (if mustSchedule cfg caller ret = true then Schedule kc else kc)
      ∧ kc.TasksVar[TaskID]?.map (fun v => v.State)
          = k.TasksVar[TaskID]?.map
              (fun v => if v.State = TaskStateType.TASK_ST_SUSPENDED
                then TaskStateType.TASK_ST_READY else v.State)
      ∧ (∀ i s, Effect.StoreState i s ∈ t → i = TaskID ∧ s = TaskStateType.TASK_ST_READY
          ∧ ∃ tv, k.TasksVar[TaskID]? = some tv
            ∧ tv.State = TaskStateType.TASK_ST_SUSPENDED)
      ∧ (TaskID < cfg.TASKS_COUNT →
          (∃ tv1, kc.TasksVar[TaskID]? = some tv1
            ∧ tv1.State ≠ TaskStateType.TASK_ST_SUSPENDED)
          ∧ ((∀ (k0 : Kernel) (i : TaskType) (v v1 : TaskVariableType),
                k0.TasksVar[i]? = some v → v.State ≠ TaskStateType.TASK_ST_SUSPENDED →
                (Schedule k0).TasksVar[i]? = some v1 →
                v1.State ≠ TaskStateType.TASK_ST_SUSPENDED) →
              ∀ tv1, k1.TasksVar[TaskID]? = some tv1 →
                tv1.State ≠ TaskStateType.TASK_ST_SUSPENDED)) := by
  obtain ⟨ret, kc, tc, ha, hcrit, -, -, hSt, -, -, -, -, -, hTS, -⟩ :=
    call_frame cfg Schedule caller TaskID k hdef hcfg hk hcaller
  refine ⟨ret, kc, _, _, ha, fun hid => ⟨tc, hcrit hid⟩, rfl, hSt, ?_, ?_⟩
  · intro i v hm
    rcases mem_call_trace cfg TaskID ret tc _ _ _ hm with h | h | h
    · exact hTS i v h
    · cases h
    · simp [ErrorReport] at h
  · intro hid
    have hlen : TaskID < k.TasksVar.length := by rw [hk]; exact hid
    have hv := List.getElem?_eq_getElem hlen
    rw [hv, Option.map_some'] at hSt
    cases hkc : kc.TasksVar[TaskID]? with
    | none => rw [hkc] at hSt; simp at hSt
    | some tv1 =>
      rw [hkc, Option.map_some', Option.some.injEq] at hSt
      have hns : tv1.State ≠ TaskStateType.TASK_ST_SUSPENDED := by
        rw [hSt]
        by_cases hs : (k.TasksVar[TaskID]).State = TaskStateType.TASK_ST_SUSPENDED
        · rw [if_pos hs]; decide
        · rw [if_neg hs]; exact hs
      refine ⟨⟨tv1, rfl, hns⟩, ?_⟩
      intro hS w hw
      by_cases hm : mustSchedule cfg caller ret = true
      · rw [if_pos hm] at hw
        exact hS kc TaskID tv1 w hkc hns hw
      · rw [if_neg hm, hkc] at hw
        cases hw
        exact hns

/-- C16 at the repeat activation of the running basic task `T0`, which stays
RUNNING. -/
theorem ActivateTask_state_witness :
    ∃ ret kc k1 t, ActivateTask cfg4 (dispatch 3) fromT2 0 kRunning = some (ret, k1, t)
      ∧ (0 < cfg4.TASKS_COUNT →
          ∃ tc, ActivateTask_critical cfg4 0 kRunning = some (ret, kc, tc))
      ∧ k1 = (if mustSchedule cfg4 fromT2 ret = true then dispatch 3 kc else kc)
      ∧ kc.TasksVar[0]?.map (fun v => v.State) = some TaskStateType.TASK_ST_RUNNING
      ∧ (∀ i s, Effect.StoreState i s ∈ t → i = 0 ∧ s = TaskStateType.TASK_ST_READY
          ∧ ∃ tv, kRunning.TasksVar[0]? = some tv
            ∧ tv.State = TaskStateType.TASK_ST_SUSPENDED)
      ∧ (0 < cfg4.TASKS_COUNT →
          (∃ tv1, kc.TasksVar[0]? = some tv1
            ∧ tv1.State ≠ TaskStateType.TASK_ST_SUSPENDED)
          ∧ ((∀ (k0 : Kernel) (i : TaskType) (v v1 : TaskVariableType),
                k0.TasksVar[i]? = some v → v.State ≠ TaskStateType.TASK_ST_SUSPENDED →
                (dispatch 3 k0).TasksVar[i]? = some v1 →
                v1.State ≠ TaskStateType.TASK_ST_SUSPENDED) →
              ∀ tv1, k1.TasksVar[0]? = some tv1 →
                tv1.State ≠ TaskStateType.TASK_ST_SUSPENDED)) :=
  ActivateTask_state cfg4 (dispatch 3) fromT2 0 kRunning (Or.inl rfl) (by decide)
    (by decide) (by decide)

/-- C17: with extended error checking, for every `TaskID` every table access of
`ActivateTask` is either an access to `TasksVar[TaskID]` or `TasksConst[TaskID]`
with `TaskID < TASKS_COUNT`, or the access `TasksConst[GetRunningTask()]` made
in task context; outside task context the running task is not used at all
(the accesses and the result do not depend on it); so every index is below
`TASKS_COUNT` when the running task is a valid identifier in task context,
and on tables of `TASKS_COUNT` entries every access is inside its table and
the call is defined. -/
theorem ActivateTask_index_safety (cfg : Config) (Schedule : Kernel → Kernel)
    (caller : Caller) (TaskID : TaskType) (k : Kernel)
    (hext : cfg.ERROR_CHECKING_EXTENDED = true) :
    (∀ a ∈ ActivateTask_accesses cfg caller TaskID k,
        ((a = Access.TasksVar TaskID ∨ a = Access.TasksConst TaskID)
          ∧ TaskID < cfg.TASKS_COUNT)
        ∨ (a = Access.TasksConst caller.GetRunningTask
          ∧ caller.GetCallingContext = ContextType.CONTEXT_TASK))
      ∧ (caller.GetCallingContext ≠ ContextType.CONTEXT_TASK →
          ∀ r : TaskType,
            ActivateTask_accesses cfg { caller with GetRunningTask := r } TaskID k
                = ActivateTask_accesses cfg caller TaskID k
              ∧ ActivateTask cfg Schedule { caller with GetRunningTask := r } TaskID k
                = ActivateTask cfg Schedule caller TaskID k)
      ∧ ((caller.GetCallingContext = ContextType.CONTEXT_TASK →
            caller.GetRunningTask < cfg.TASKS_COUNT) →
          ∀ a ∈ ActivateTask_accesses cfg caller TaskID k, a.index < cfg.TASKS_COUNT)
      ∧ (cfg.wf → k.wf cfg →
          (caller.GetCallingContext = ContextType.CONTEXT_TASK →
            caller.GetRunningTask < cfg.TASKS_COUNT) →
          (ActivateTask cfg Schedule caller TaskID k).isSome = true
            ∧ ∀ a ∈ ActivateTask_accesses cfg caller TaskID k, a.inTable cfg k) := by
  have h1 : ∀ a ∈ ActivateTask_accesses cfg caller TaskID k,
      ((a = Access.TasksVar TaskID ∨ a = Access.TasksConst TaskID)
        ∧ TaskID < cfg.TASKS_COUNT)
      ∨ (a = Access.TasksConst caller.GetRunningTask
        ∧ caller.GetCallingContext = ContextType.CONTEXT_TASK) := by
    intro a ha
    unfold ActivateTask_accesses at ha
    by_cases hge : cfg.TASKS_COUNT ≤ TaskID
    · rw [if_pos ⟨hext, hge⟩] at ha
      cases ha
    · have hid : TaskID < cfg.TASKS_COUNT := Nat.lt_of_not_le hge
      rw [if_neg (fun h => hge h.2)] at ha
      rcases List.mem_append.mp ha with h | h
      · exact Or.inl ⟨critical_accesses_index cfg TaskID k a h, hid⟩
      · split at h
        · rename_i hc
          simp only [List.mem_singleton] at h
          exact Or.inr ⟨h, hc.2⟩
        · cases h
  refine ⟨h1, ?_, ?_, ?_⟩
  · intro hctx r
    constructor
    · simp [ActivateTask_accesses, hctx]
    · simp [ActivateTask, ActivateTask_body, hctx]
  · intro hrun a ha
    rcases h1 a ha with ⟨h | h, hid⟩ | ⟨h, hctx⟩
    · rw [h]; exact hid
    · rw [h]; exact hid
    · rw [h]; exact hrun hctx
  · intro hcfg hk hrun
    have hcaller : caller.ok cfg := by
      intro hctx
      rw [hcfg]; exact hrun hctx
    obtain ⟨ret, kc, tc, -, ha, -⟩ :=
      ActivateTask_shape cfg Schedule caller TaskID k (Or.inl hext) hcfg hk hcaller
    have hsome : (ActivateTask cfg Schedule caller TaskID k).isSome = true := by
      rw [ha]; rfl
    exact ⟨hsome, (ActivateTask_defined_iff cfg Schedule caller TaskID k).mp hsome⟩

/-- C17 at a call from an interrupt with no running task (`GetRunningTask()`
is 255) and at an identifier out of range. -/
theorem ActivateTask_index_safety_witness :
    ((∀ a ∈ ActivateTask_accesses cfg4 fromISR 0 kReady1,
        ((a = Access.TasksVar 0 ∨ a = Access.TasksConst 0) ∧ 0 < cfg4.TASKS_COUNT)
        ∨ (a = Access.TasksConst fromISR.GetRunningTask
          ∧ fromISR.GetCallingContext = ContextType.CONTEXT_TASK))
      ∧ (fromISR.GetCallingContext ≠ ContextType.CONTEXT_TASK →
          ∀ r : TaskType,
            ActivateTask_accesses cfg4 { fromISR with GetRunningTask := r } 0 kReady1
                = ActivateTask_accesses cfg4 fromISR 0 kReady1
              ∧ ActivateTask cfg4 id { fromISR with GetRunningTask := r } 0 kReady1
                = ActivateTask cfg4 id fromISR 0 kReady1)
      ∧ ((fromISR.GetCallingContext = ContextType.CONTEXT_TASK →
            fromISR.GetRunningTask < cfg4.TASKS_COUNT) →
          ∀ a ∈ ActivateTask_accesses cfg4 fromISR 0 kReady1, a.index < cfg4.TASKS_COUNT)
      ∧ (cfg4.wf → kReady1.wf cfg4 →
          (fromISR.GetCallingContext = ContextType.CONTEXT_TASK →
            fromISR.GetRunningTask < cfg4.TASKS_COUNT) →
          (ActivateTask cfg4 id fromISR 0 kReady1).isSome = true
            ∧ ∀ a ∈ ActivateTask_accesses cfg4 fromISR 0 kReady1, a.inTable cfg4 kReady1))
      ∧ ActivateTask_accesses cfg4 fromISR 0 kReady1
          = [Access.TasksVar 0, Access.TasksConst 0, Access.TasksVar 0,
             Access.TasksConst 0, Access.TasksVar 0]
      ∧ ActivateTask_accesses cfg4 fromT2 3 boot4
          = [Access.TasksVar 3, Access.TasksVar 3, Access.TasksVar 3, Access.TasksVar 3,
             Access.TasksConst 2]
      ∧ ActivateTask_accesses cfg4 fromT2 10 boot4 = [] :=
  ⟨ActivateTask_index_safety cfg4 id fromISR 0 kReady1 rfl, by decide, by decide, by decide⟩

/-- C18: with `Activations` and `MaxActivations` unsigned integers of the same
width `ActivationsBits`, in the repeat-activation branch (a basic task that is
not suspended, with `Activations < MaxActivations`) the increment does not
overflow, the stored value is `Activations + 1` and it is at most
`MaxActivations`; in the SUSPENDED branch, from a counter of 0 and a width of
at least one bit, the increment does not overflow and the stored value is 1. -/
theorem ActivateTask_no_wraparound (cfg : Config) (TaskID : TaskType) (k : Kernel)
    (tv : TaskVariableType) (hv : k.TasksVar[TaskID]? = some tv) :
    (∀ tc, cfg.TasksConst[TaskID]? = some tc →
        tc.MaxActivations < 2 ^ cfg.ActivationsBits →
        tv.State ≠ TaskStateType.TASK_ST_SUSPENDED → tc.Extended = false →
        tv.Activations < tc.MaxActivations →
        tv.Activations + 1 < 2 ^ cfg.ActivationsBits
          ∧ incrActivations cfg tv.Activations = tv.Activations + 1
          ∧ incrActivations cfg tv.Activations ≤ tc.MaxActivations
          ∧ ∃ kc t, ActivateTask_critical cfg TaskID k = some (StatusType.E_OK, kc, t)
              ∧ kc.TasksVar[TaskID]? = some { tv with Activations := tv.Activations + 1 }
              ∧ Effect.StoreActivations TaskID (tv.Activations + 1) ∈ t)
      ∧ (tv.State = TaskStateType.TASK_ST_SUSPENDED → tv.Activations = 0 →
          0 < cfg.ActivationsBits →
          tv.Activations + 1 < 2 ^ cfg.ActivationsBits
            ∧ incrActivations cfg tv.Activations = 1
            ∧ ∃ kc t, ActivateTask_critical cfg TaskID k = some (StatusType.E_OK, kc, t)
                ∧ kc.TasksVar[TaskID]?.map (fun v => v.Activations) = some 1
                ∧ Effect.StoreActivations TaskID 1 ∈ t) := by
  have hlen : TaskID < k.TasksVar.length := by
    rcases List.getElem?_eq_some.mp hv with ⟨h, _⟩
    exact h
  constructor
  · intro tc hc hfit hs he hlt
    have hno : tv.Activations + 1 < 2 ^ cfg.ActivationsBits := by omega
    have hinc : incrActivations cfg tv.Activations = tv.Activations + 1 := by
      unfold incrActivations
      exact Nat.mod_eq_of_lt hno
    refine ⟨hno, hinc, by rw [hinc]; omega, _, _,
      critical_repeat cfg TaskID k tv tc hv hc hs he hlt, ?_, ?_⟩
    · simp [hlen, hinc]
    · simp [hinc]
  · intro hs h0 hbits
    have h2 : 1 < 2 ^ cfg.ActivationsBits := Nat.one_lt_two_pow (by omega)
    have hinc : incrActivations cfg tv.Activations = 1 := by
      unfold incrActivations
      rw [h0]
      exact Nat.mod_eq_of_lt h2
    refine ⟨by rw [h0]; exact h2, hinc, _, _, critical_suspended cfg TaskID k tv hv hs, ?_, ?_⟩
    · simp [hlen, hinc]
    · simp [hinc]

/-- C18 at the second activation of `T0` (counter 1 to 2, limit 3, 8 bits) and
at the first activation of `T3` (counter 0 to 1). -/
theorem ActivateTask_no_wraparound_witness :
    (1 + 1 < 2 ^ cfg4.ActivationsBits
      ∧ incrActivations cfg4 1 = 1 + 1
      ∧ incrActivations cfg4 1 ≤ 3
      ∧ ∃ kc t, ActivateTask_critical cfg4 0 kReady1 = some (StatusType.E_OK, kc, t)
          ∧ kc.TasksVar[0]? =
              some { State := TaskStateType.TASK_ST_READY, Activations := 1 + 1, Events := 0 }
          ∧ Effect.StoreActivations 0 (1 + 1) ∈ t)
      ∧ (0 + 1 < 2 ^ cfg4.ActivationsBits
        ∧ incrActivations cfg4 0 = 1
        ∧ ∃ kc t, ActivateTask_critical cfg4 3 boot4 = some (StatusType.E_OK, kc, t)
            ∧ kc.TasksVar[3]?.map (fun v => v.Activations) = some 1
            ∧ Effect.StoreActivations 3 1 ∈ t) :=
  ⟨(ActivateTask_no_wraparound cfg4 0 kReady1
      { State := TaskStateType.TASK_ST_READY, Activations := 1, Events := 0 } rfl).1
      { StaticPriority := 5, MaxActivations := 3, Extended := false, Preemtive := false }
      rfl (by decide) (by decide) rfl (by decide),
    (ActivateTask_no_wraparound cfg4 3 boot4 bootTask rfl).2 rfl rfl (by decide)⟩

end OpenSEK
